import Mathlib

/-!
Verification of the Fusion+ relayer (`src/stellar/resolver/resolverIntegration.ts`,
class `FusionPlusRelayer`) against its natural-language specification.

The relayer's mutable maps, timer handles, broadcast channel and per-order
state machine are shallowly embedded as a pure record `RelayerState` together
with one Lean function per TypeScript method.  JavaScript numbers used as
timestamps and block heights become `Int`; prices (strings run through
`parseFloat` and float arithmetic in the source) become `Rat`; `Map`s become
association lists; `Set`s and timer-handle maps become lists of keys; each
`broadcastToResolvers` call appends the message to a log.  `setTimeout` /
`setInterval` scheduling is made explicit: pending one-shot callbacks live in
`pendingAuctionStart` / `pendingCompletions`, and an interval callback can
fire only while its handle is registered in `auctionTimers` /
`escrowMonitors`.
-/

namespace EthXlmAtomic

/-! ## Association-list maps (the `Map<string, T>` fields of the class) -/

def lookupA {α : Type} (k : String) : List (String × α) → Option α
  | [] => none
  | (k', v) :: t => if k' = k then some v else lookupA k t

def setA {α : Type} (k : String) (v : α) (l : List (String × α)) : List (String × α) :=
  (k, v) :: l.filter (fun p => p.1 ≠ k)

def insertT (k : String) (l : List String) : List String :=
  k :: l.filter (fun x => x ≠ k)

def eraseT (k : String) (l : List String) : List String :=
  l.filter (fun x => x ≠ k)

@[simp] theorem lookupA_nil {α : Type} (k : String) : lookupA (α := α) k [] = none := rfl

@[simp] theorem lookupA_cons {α : Type} (k : String) (p : String × α) (t : List (String × α)) :
    lookupA k (p :: t) = if p.1 = k then some p.2 else lookupA k t := by
  cases p
  rfl

theorem lookupA_filter_ne {α : Type} (k : String) (l : List (String × α)) :
    lookupA k (l.filter (fun p => p.1 ≠ k)) = none := by
  induction l with
  | nil => rfl
  | cons h t ih =>
    rw [List.filter_cons]
    by_cases hk : h.1 = k
    · simpa [hk] using ih
    · simpa [hk] using ih

@[simp] theorem lookupA_setA_self {α : Type} (k : String) (v : α) (l : List (String × α)) :
    lookupA k (setA k v l) = some v := by
  simp [setA]

theorem lookupA_filter_of_ne {α : Type} (k k' : String) (hk : k' ≠ k)
    (l : List (String × α)) :
    lookupA k' (l.filter (fun p => p.1 ≠ k)) = lookupA k' l := by
  induction l with
  | nil => rfl
  | cons h t ih =>
    rw [List.filter_cons]
    by_cases h1 : h.1 = k
    · have h2 : h.1 ≠ k' := by rw [h1]; exact fun e => hk e.symm
      have h3 : ¬(k = k') := by rw [← h1]; exact h2
      simpa [h1, h2, h3, hk] using ih
    · by_cases h2 : h.1 = k'
      · simp [h1, h2, hk]
      · simpa [h1, h2, hk] using ih

@[simp] theorem lookupA_setA_ne {α : Type} (k k' : String) (hk : k' ≠ k) (v : α)
    (l : List (String × α)) :
    lookupA k' (setA k v l) = lookupA k' l := by
  have h2 : k ≠ k' := fun e => hk e.symm
  simp only [setA, lookupA_cons, if_neg h2]
  exact lookupA_filter_of_ne k k' hk l

@[simp] theorem mem_insertT_self (k : String) (l : List String) : k ∈ insertT k l := by
  simp [insertT]

@[simp] theorem not_mem_eraseT_self (k : String) (l : List String) : k ∉ eraseT k l := by
  simp [eraseT]

/-! ## Configuration constants (`FUSION_CONFIG`) -/

def AUCTION_DURATION : Int := 300000

def PRICE_UPDATE_INTERVAL : Int := 5000

def WAITING_PERIOD : Int := 30000

def ETHEREUM_FINALITY_BLOCKS : Int := 2

def STELLAR_FINALITY_LEDGERS : Int := 4

def MAX_SAFE_INTEGER : Int := 9007199254740991

/-! ## Data model -/

inductive OrderStatus : Type
  | waiting
  | auction
  | filled
  | escrows_pending
  | escrows_ready
  | secret_revealed
  | completed
  | expired
deriving DecidableEq, Repr

structure FusionPlusOrder : Type where
  orderId : String
  maker : String
  makerStellar : String
  srcChain : String
  dstChain : String
  srcToken : String
  dstToken : String
  srcAmount : String
  dstAmount : String
  startPrice : Rat
  minPrice : Rat
  hashlock : String
  secret : String
  signature : String
  timestamp : Int
  deadline : Int
deriving DecidableEq, Repr

structure PublicOrder : Type where
  orderId : String
  maker : String
  makerStellar : String
  srcChain : String
  dstChain : String
  srcToken : String
  dstToken : String
  srcAmount : String
  dstAmount : String
  currentPrice : Rat
  hashlock : String
  signature : String
  auctionStartTime : Int
  auctionEndTime : Int
  waitingPeriod : Int
  status : OrderStatus
deriving DecidableEq, Repr

structure ResolverConnection : Type where
  id : String
  address : String
  isAuthenticated : Bool
  lastPing : Int
deriving DecidableEq, Repr

structure EscrowStatus : Type where
  ethereumExists : Bool
  stellarExists : Bool
  ethereumFinalized : Bool
  stellarFinalized : Bool
  ethereumBlock : Option Int
  stellarLedger : Option Int
  ethereumFinalityBlock : Option Int
  stellarFinalityLedger : Option Int
deriving DecidableEq, Repr

inductive TimerKind : Type
  | auction
  | monitor
deriving DecidableEq, Repr

inductive Msg : Type
  | new_order (orderId : String)
  | price_update (orderId : String) (currentPrice : Rat) (timeRemaining : Int)
  | order_filled (orderId : String) (finalPrice : Rat)
  | order_taken (orderId : String) (resolverAddress : String)
  | order_expired (orderId : String)
  | secret_revealed (orderId : String) (secret : String)
deriving DecidableEq, Repr

inductive HttpRes : Type
  | ok (orderId : String)
  | badRequest (err : String)
  | notFound (err : String)
deriving DecidableEq, Repr

structure RelayerState : Type where
  signedOrders : List (String × FusionPlusOrder)
  publicOrders : List (String × PublicOrder)
  escrowStatuses : List (String × EscrowStatus)
  secretsRevealed : List String
  resolvers : List (String × ResolverConnection)
  auctionTimers : List String
  escrowMonitors : List String
  createdTimers : List (String × TimerKind)
  pendingAuctionStart : List String
  pendingCompletions : List String
  broadcasts : List Msg
deriving DecidableEq, Repr

def emptyState : RelayerState :=
  { signedOrders := [], publicOrders := [], escrowStatuses := [], secretsRevealed := []
    resolvers := [], auctionTimers := [], escrowMonitors := [], createdTimers := []
    pendingAuctionStart := [], pendingCompletions := [], broadcasts := [] }

def pushMsg (m : Msg) (st : RelayerState) : RelayerState :=
  { st with broadcasts := st.broadcasts ++ [m] }

/-! ## State accessors used by the theorems -/

def statusOf (st : RelayerState) (oid : String) : Option OrderStatus :=
  (lookupA oid st.publicOrders).map (fun o => o.status)

def priceOf (st : RelayerState) (oid : String) : Option Rat :=
  (lookupA oid st.publicOrders).map (fun o => o.currentPrice)

def escEthExists (st : RelayerState) (oid : String) : Bool :=
  match lookupA oid st.escrowStatuses with
  | some es => es.ethereumExists
  | none => false

def escStExists (st : RelayerState) (oid : String) : Bool :=
  match lookupA oid st.escrowStatuses with
  | some es => es.stellarExists
  | none => false

def isPriceUpdate (oid : String) : Msg → Bool
  | .price_update o _ _ => o = oid
  | _ => false

def isSecretReveal (oid : String) : Msg → Bool
  | .secret_revealed o _ => o = oid
  | _ => false

def priceUpdateCount (oid : String) (l : List Msg) : Nat :=
  l.countP (isPriceUpdate oid)

def secretRevealCount (oid : String) (l : List Msg) : Nat :=
  l.countP (isSecretReveal oid)

def createdCount (oid : String) (kind : TimerKind) (l : List (String × TimerKind)) : Nat :=
  l.countP (fun p => p.1 = oid ∧ p.2 = kind)

/-! ## Order validation (`validateFusionOrder`, lines 604-660)

The SHA-256 hash and `parseFloat` are external primitives; they are passed in
as function parameters.  The maker-signature verification block in the source
is commented out ("TEMPORARILY DISABLED FOR DEBUG"), so the embedding performs
no signature check, faithfully to the code as it stands. -/

def requiredPresent (o : FusionPlusOrder) : Option String :=
  if o.orderId = "" then some "Missing required field: orderId"
  else if o.maker = "" then some "Missing required field: maker"
  else if o.makerStellar = "" then some "Missing required field: makerStellar"
  else if o.srcAmount = "" then some "Missing required field: srcAmount"
  else if o.dstAmount = "" then some "Missing required field: dstAmount"
  else if o.hashlock = "" then some "Missing required field: hashlock"
  else if o.secret = "" then some "Missing required field: secret"
  else if o.signature = "" then some "Missing required field: signature"
  else none

def validateFusionOrder (sha256 : String → String) (parseFloat : String → Rat)
    (now : Int) (o : FusionPlusOrder) : Option String :=
  match requiredPresent o with
  | some e => some e
  | none =>
    if sha256 o.secret ≠ o.hashlock then some "Hashlock does not match secret"
    else if o.deadline ≠ 0 ∧ now > o.deadline then some "Order expired"
    else if parseFloat o.srcAmount ≤ 0 ∨ parseFloat o.dstAmount ≤ 0 then some "Invalid amounts"
    else none

/-! ## Order acceptance (`startFusionProcess`, lines 665-708) -/

def startEscrowMonitoring (oid : String) (st : RelayerState) : RelayerState :=
  { st with escrowMonitors := insertT oid st.escrowMonitors
            createdTimers := st.createdTimers ++ [(oid, TimerKind.monitor)] }

def startFusionProcess (now : Int) (o : FusionPlusOrder) (st : RelayerState) : RelayerState :=
  let po : PublicOrder :=
    { orderId := o.orderId, maker := o.maker, makerStellar := o.makerStellar
      srcChain := o.srcChain, dstChain := o.dstChain
      srcToken := o.srcToken, dstToken := o.dstToken
      srcAmount := o.srcAmount, dstAmount := o.dstAmount
      currentPrice := o.startPrice
      hashlock := o.hashlock, signature := o.signature
      auctionStartTime := now + WAITING_PERIOD
      auctionEndTime := now + WAITING_PERIOD + AUCTION_DURATION
      waitingPeriod := WAITING_PERIOD
      status := .waiting }
  let es : EscrowStatus :=
    { ethereumExists := false, stellarExists := false
      ethereumFinalized := false, stellarFinalized := false
      ethereumBlock := none, stellarLedger := none
      ethereumFinalityBlock := none, stellarFinalityLedger := none }
  let st1 : RelayerState :=
    { st with signedOrders := setA o.orderId o st.signedOrders
              publicOrders := setA o.orderId po st.publicOrders
              escrowStatuses := setA o.orderId es st.escrowStatuses
              pendingAuctionStart := o.orderId :: st.pendingAuctionStart }
  startEscrowMonitoring o.orderId st1

def postOrders (sha256 : String → String) (parseFloat : String → Rat)
    (now : Int) (o : FusionPlusOrder) (st : RelayerState) : RelayerState × HttpRes :=
  match validateFusionOrder sha256 parseFloat now o with
  | some e => (st, .badRequest e)
  | none => (startFusionProcess now o st, .ok o.orderId)

/-! ## Timer teardown helpers (clearInterval + Map.delete pairs) -/

def clearAuctionTimer (oid : String) (st : RelayerState) : RelayerState :=
  { st with auctionTimers := eraseT oid st.auctionTimers }

def clearMonitor (oid : String) (st : RelayerState) : RelayerState :=
  { st with escrowMonitors := eraseT oid st.escrowMonitors }

/-! ## Secret reveal (`revealSecret`, lines 1002-1060)

The `setTimeout` that later marks the order completed is recorded in
`pendingCompletions`; the corresponding callback is `deferredCompleteBody`. -/

def revealSecret (oid : String) (st : RelayerState) : RelayerState :=
  match lookupA oid st.signedOrders, lookupA oid st.publicOrders with
  | some so, some po =>
    if oid ∈ st.secretsRevealed then st
    else
      let st1 : RelayerState :=
        { st with secretsRevealed := oid :: st.secretsRevealed
                  publicOrders := setA oid { po with status := .secret_revealed } st.publicOrders }
      let st2 := pushMsg (.secret_revealed oid so.secret) st1
      let st3 := clearAuctionTimer oid st2
      let st4 := clearMonitor oid st3
      { st4 with pendingCompletions := oid :: st4.pendingCompletions }
  | _, _ => st

def deferredCompleteBody (oid : String) (st : RelayerState) : RelayerState :=
  match lookupA oid st.publicOrders with
  | some po => { st with publicOrders := setA oid { po with status := .completed } st.publicOrders }
  | none => st

/-! ## Dutch auction (`startDutchAuction`, lines 713-792)

`startDutchAuction` is the body of the `setTimeout` scheduled at acceptance;
`auctionTickBody` is the body of the `setInterval` it installs. -/

def startDutchAuction (oid : String) (st : RelayerState) : RelayerState :=
  match lookupA oid st.publicOrders, lookupA oid st.signedOrders with
  | some po, some _ =>
    let st1 : RelayerState :=
      { st with publicOrders := setA oid { po with status := .auction } st.publicOrders }
    let st2 := pushMsg (.new_order oid) st1
    { st2 with auctionTimers := insertT oid st2.auctionTimers
               createdTimers := st2.createdTimers ++ [(oid, TimerKind.auction)] }
  | _, _ => st

def auctionTickBody (now : Int) (oid : String) (st : RelayerState) : RelayerState :=
  match lookupA oid st.publicOrders with
  | none => clearAuctionTimer oid st
  | some cur =>
    if cur.status ≠ .auction then clearAuctionTimer oid st
    else
      let esc := lookupA oid st.escrowStatuses
      if (match esc with | some e => e.ethereumExists | none => false) then
        clearAuctionTimer oid st
      else if now > cur.auctionEndTime then
        clearAuctionTimer oid (pushMsg (.order_expired oid)
          { st with publicOrders := setA oid { cur with status := .expired } st.publicOrders })
      else
        match lookupA oid st.signedOrders with
        | none => st
        | some so =>
          let progress : Rat := ((now - cur.auctionStartTime : Int) : Rat) / (AUCTION_DURATION : Rat)
          let price : Rat := so.startPrice - progress * (so.startPrice - so.minPrice)
          let newPrice : Rat := max price so.minPrice
          let st1 : RelayerState :=
            { st with publicOrders := setA oid { cur with currentPrice := newPrice } st.publicOrders }
          let noEthEscrow : Bool := match esc with | some e => !e.ethereumExists | none => true
          if cur.status = .auction ∧ noEthEscrow then
            pushMsg (.price_update oid newPrice (cur.auctionEndTime - now)) st1
          else st1

/-! ## Escrow monitoring (`startEscrowMonitoring` tick, lines 797-872)

Chain queries are external suspensions; their results enter the tick as
parameters: `ethRes`/`stRes` are the booleans returned by
`checkEthereumEscrow`/`checkStellarEscrow` (query errors are caught there and
become `false`), `ethBlock` is the block height read when capturing the source
finality threshold, and `finHead` is the height read by `checkFinality`
(`none` when that query throws, making `checkFinality` return false). -/

def jsFalsyOpt : Option Int → Bool
  | none => true
  | some v => v = 0

def jsOrI (x : Option Int) (d : Int) : Int :=
  match x with
  | none => d
  | some v => if v = 0 then d else v

def checkEthereumEscrowStep (ethRes : Bool) (ethBlock : Int) (es : EscrowStatus) :
    Bool × EscrowStatus :=
  if ethRes then
    if jsFalsyOpt es.ethereumBlock then
      (true, { es with ethereumBlock := some ethBlock
                       ethereumFinalityBlock := some (ethBlock + ETHEREUM_FINALITY_BLOCKS) })
    else (true, es)
  else (false, es)

def checkFinalityStep (finHead : Option Int) (nowSec : Int) (es : EscrowStatus) :
    Bool × EscrowStatus :=
  match finHead with
  | none => (false, es)
  | some h =>
    let ethFinalized : Bool := h > jsOrI es.ethereumFinalityBlock MAX_SAFE_INTEGER
    let stellarFinalized : Bool := nowSec ≥ jsOrI es.stellarFinalityLedger 0
    let reached := ethFinalized && stellarFinalized
    if reached = true ∧ es.ethereumFinalized = false then
      (reached, { es with ethereumFinalized := true, stellarFinalized := true })
    else (reached, es)

def monitorEthStage (ethRes : Bool) (ethBlock : Int) (oid : String) (st : RelayerState) :
    RelayerState :=
  match lookupA oid st.escrowStatuses, lookupA oid st.publicOrders with
  | some es, some po =>
    if es.ethereumExists then st
    else
      let r := (checkEthereumEscrowStep ethRes ethBlock es).1
      let es1 := (checkEthereumEscrowStep ethRes ethBlock es).2
      let st1 : RelayerState :=
        { st with escrowStatuses := setA oid { es1 with ethereumExists := r } st.escrowStatuses }
      if r then
        let st2 := clearAuctionTimer oid st1
        if po.status = .auction then
          pushMsg (.order_filled oid po.currentPrice)
            { st2 with publicOrders := setA oid { po with status := .filled } st2.publicOrders }
        else st2
      else st1
  | _, _ => st

def monitorStellarStage (stRes : Bool) (oid : String) (st : RelayerState) : RelayerState :=
  match lookupA oid st.escrowStatuses with
  | some es =>
    if es.stellarExists then st
    else { st with escrowStatuses := setA oid { es with stellarExists := stRes } st.escrowStatuses }
  | none => st

def monitorFinalStage (finHead : Option Int) (nowSec : Int) (oid : String)
    (st : RelayerState) : RelayerState :=
  match lookupA oid st.escrowStatuses, lookupA oid st.publicOrders with
  | some es, some po =>
    if es.ethereumExists ∧ es.stellarExists then
      let st1 : RelayerState :=
        if po.status ≠ .escrows_pending ∧ po.status ≠ .escrows_ready then
          { st with publicOrders := setA oid { po with status := .escrows_pending } st.publicOrders }
        else st
      let reached := (checkFinalityStep finHead nowSec es).1
      let es1 := (checkFinalityStep finHead nowSec es).2
      let st2 : RelayerState :=
        { st1 with escrowStatuses := setA oid es1 st1.escrowStatuses }
      if reached then
        let st3 : RelayerState :=
          match lookupA oid st2.publicOrders with
          | some po2 =>
            if po2.status = .escrows_pending then
              { st2 with publicOrders := setA oid { po2 with status := .escrows_ready } st2.publicOrders }
            else st2
          | none => st2
        revealSecret oid st3
      else st2
    else st
  | _, _ => st

def monitorTickBody (ethRes : Bool) (ethBlock : Int) (stRes : Bool)
    (finHead : Option Int) (nowSec : Int) (oid : String) (st : RelayerState) : RelayerState :=
  match lookupA oid st.escrowStatuses, lookupA oid st.publicOrders with
  | some _, some _ =>
    monitorFinalStage finHead nowSec oid
      (monitorStellarStage stRes oid (monitorEthStage ethRes ethBlock oid st))
  | _, _ => clearMonitor oid st

/-! ## Resolver channel (`handleResolverMessage`, lines 1065-1145) -/

def handleRegister (rid addr : String) (now : Int) (st : RelayerState) :
    RelayerState × List PublicOrder :=
  let conn : ResolverConnection :=
    { id := rid, address := addr, isAuthenticated := true, lastPing := now }
  let st1 : RelayerState := { st with resolvers := setA rid conn st.resolvers }
  let active := (st1.publicOrders.map Prod.snd).filter
    (fun o => o.status = .waiting ∨ o.status = .auction ∨ o.status = .filled)
  (st1, active)

def handleTakeOrder (oid raddr : String) (st : RelayerState) : RelayerState :=
  match lookupA oid st.publicOrders with
  | none => st
  | some o =>
    let st1 : RelayerState :=
      { st with publicOrders := setA oid { o with status := .filled } st.publicOrders }
    let st2 := pushMsg (.order_taken oid raddr) st1
    let st3 := clearAuctionTimer oid st2
    startEscrowMonitoring oid st3

/-! ## Debug endpoint (`POST /simulate-escrow`, lines 493-538) -/

def simulateEscrow (oid chain : String) (st : RelayerState) : RelayerState × HttpRes :=
  if oid = "" ∨ chain = "" then (st, .badRequest "Missing orderId or chain")
  else
    match lookupA oid st.escrowStatuses with
    | none => (st, .notFound "Order not found")
    | some es =>
      if chain = "ethereum" then
        let st1 : RelayerState :=
          { st with escrowStatuses := setA oid { es with ethereumExists := true } st.escrowStatuses }
        let st2 := clearAuctionTimer oid st1
        let st3 : RelayerState :=
          match lookupA oid st2.publicOrders with
          | some po =>
            if po.status = .auction then
              pushMsg (.order_filled oid po.currentPrice)
                { st2 with publicOrders := setA oid { po with status := .filled } st2.publicOrders }
            else st2
          | none => st2
        (st3, .ok oid)
      else if chain = "stellar" then
        ({ st with escrowStatuses := setA oid { es with stellarExists := true } st.escrowStatuses },
         .ok oid)
      else (st, .ok oid)

/-! ## The per-order operations as events

An interval callback fires only while its handle is registered; a one-shot
`setTimeout` callback fires at most once, consuming its pending entry. -/

inductive Event : Type
  | auctionStart (oid : String)
  | auctionTick (now : Int) (oid : String)
  | monitorTick (ethRes : Bool) (ethBlock : Int) (stRes : Bool)
      (finHead : Option Int) (nowSec : Int) (oid : String)
  | takeOrder (oid raddr : String)
  | reveal (oid : String)
  | deferredComplete (oid : String)
  | simulate (oid chain : String)
  | register (rid addr : String) (now : Int)
deriving DecidableEq, Repr

def step : Event → RelayerState → RelayerState
  | .auctionStart oid, st =>
    if oid ∈ st.pendingAuctionStart then
      startDutchAuction oid
        { st with pendingAuctionStart := st.pendingAuctionStart.erase oid }
    else st
  | .auctionTick now oid, st =>
    if oid ∈ st.auctionTimers then auctionTickBody now oid st else st
  | .monitorTick ethRes ethBlock stRes finHead nowSec oid, st =>
    if oid ∈ st.escrowMonitors then
      monitorTickBody ethRes ethBlock stRes finHead nowSec oid st
    else st
  | .takeOrder oid raddr, st => handleTakeOrder oid raddr st
  | .reveal oid, st => revealSecret oid st
  | .deferredComplete oid, st =>
    if oid ∈ st.pendingCompletions then
      deferredCompleteBody oid { st with pendingCompletions := st.pendingCompletions.erase oid }
    else st
  | .simulate oid chain, st => (simulateEscrow oid chain st).1
  | .register rid addr now, st => (handleRegister rid addr now st).1

def run (evs : List Event) (st : RelayerState) : RelayerState :=
  evs.foldl (fun s e => step e s) st

/-! ## Concrete stand-ins used by witnesses and counterexamples -/

def shaStub : String → String := fun _ => "hashed-secret"

def pfStub : String → Rat := fun _ => 1

def goodOrder : FusionPlusOrder :=
  { orderId := "ord-1", maker := "0xMAKER", makerStellar := "GSTELLAR"
    srcChain := "ethereum", dstChain := "stellar"
    srcToken := "0x0000000000000000000000000000000000000000", dstToken := "native"
    srcAmount := "1000000000000000", dstAmount := "2000000000"
    startPrice := 1050000000, minPrice := 950000000
    hashlock := "hashed-secret", secret := "my-secret"
    signature := "not-a-valid-signature", timestamp := 0, deadline := 0 }

def mismatchOrder : FusionPlusOrder :=
  { goodOrder with hashlock := "some-other-hash" }

/-! ## C6: hashlock-mismatch orders are rejected with no side effects -/

/-- C6: submitting an order whose `sha256(secret)` differs from the declared
hashlock always yields an HTTP 400 validation error, and the relayer state is
returned unchanged: no PublicOrder, no escrow-status record, and no timers are
created. -/
theorem hashlock_mismatch_rejected (sha256 : String → String) (parseFloat : String → Rat)
    (now : Int) (o : FusionPlusOrder) (st : RelayerState)
    (h : sha256 o.secret ≠ o.hashlock) :
    ∃ e, postOrders sha256 parseFloat now o st = (st, .badRequest e) := by
  cases hreq : requiredPresent o with
  | some e =>
    refine ⟨e, ?_⟩
    unfold postOrders validateFusionOrder
    rw [hreq]
  | none =>
    refine ⟨"Hashlock does not match secret", ?_⟩
    unfold postOrders validateFusionOrder
    rw [hreq]
    simp [h]

/-- Witness for C6 at a concrete mismatched order. -/
theorem hashlock_mismatch_rejected_witness :
    ∃ e, postOrders shaStub pfStub 0 mismatchOrder emptyState = (emptyState, .badRequest e) :=
  hashlock_mismatch_rejected shaStub pfStub 0 mismatchOrder emptyState (by decide)

/-! ## C7: the maker-signature check is disabled in the code -/

/-- C7 (code bug): the source's maker-signature verification block is commented
out ("TEMPORARILY DISABLED FOR DEBUG"), so validation accepts an order
regardless of its signature: the same order passes with two different garbage
signatures, the POST /orders route answers 200, and the unverified order enters
the signed-order set. -/
theorem signature_never_checked :
    validateFusionOrder shaStub pfStub 0 goodOrder = none
    ∧ validateFusionOrder shaStub pfStub 0 { goodOrder with signature := "0x00" } = none
    ∧ (postOrders shaStub pfStub 0 goodOrder emptyState).2 = .ok "ord-1"
    ∧ lookupA "ord-1" (postOrders shaStub pfStub 0 goodOrder emptyState).1.signedOrders
        = some goodOrder := by
  refine ⟨rfl, rfl, rfl, rfl⟩

/-! ## C8: the register snapshot filters to waiting/auction/filled only -/

def pendingPO : PublicOrder :=
  { orderId := "ord-1", maker := "0xMAKER", makerStellar := "GSTELLAR"
    srcChain := "ethereum", dstChain := "stellar"
    srcToken := "0x0000000000000000000000000000000000000000", dstToken := "native"
    srcAmount := "1000000000000000", dstAmount := "2000000000"
    currentPrice := 1050000000
    hashlock := "hashed-secret", signature := "not-a-valid-signature"
    auctionStartTime := 30000, auctionEndTime := 330000, waitingPeriod := 30000
    status := .escrows_pending }

def stRegister : RelayerState :=
  { emptyState with publicOrders := [("ord-1", pendingPO)] }

/-- C8 counterexample: a stored order in the non-terminal status
`escrows_pending` (neither `completed` nor `expired`) is NOT included in the
`active_orders` reply sent on registration — the code filters the snapshot to
`waiting`/`auction`/`filled` only, so the reply here is empty. -/
theorem register_snapshot_excludes_pending :
    pendingPO.status ≠ .completed ∧ pendingPO.status ≠ .expired
    ∧ (handleRegister "res-1" "0xRESOLVER" 0 stRegister).2 = [] :=
  ⟨by decide, by decide, rfl⟩

/-- C8 (amended): when a resolver session registers it is added to the session
set and immediately receives an `active_orders` reply containing exactly those
stored PublicOrders whose status is `waiting`, `auction` or `filled`; orders in
`escrows_pending`, `escrows_ready` or `secret_revealed` — though non-terminal —
are excluded. -/
theorem register_snapshot (rid addr : String) (now : Int) (st : RelayerState) :
    (lookupA rid (handleRegister rid addr now st).1.resolvers).isSome = true
    ∧ ∀ o : PublicOrder,
        o ∈ (handleRegister rid addr now st).2 ↔
          (o ∈ st.publicOrders.map Prod.snd ∧
            (o.status = .waiting ∨ o.status = .auction ∨ o.status = .filled)) := by
  constructor
  · simp [handleRegister]
  · intro o
    simp [handleRegister, List.mem_filter]

/-! ## C10: the POST /simulate-escrow debug endpoint -/

/-- C10: for a known order, a simulate-escrow request with chain "ethereum"
sets the Ethereum-existence flag, removes the auction timer, and — when the
order's status was `auction` — sets it to `filled` and broadcasts
`order_filled` with the current price; chain "stellar" sets the
Stellar-existence flag; an unknown orderId yields 404 and leaves the state
unchanged. -/
theorem simulate_escrow_endpoint (st : RelayerState) (oid : String) (h0 : oid ≠ "") :
    (lookupA oid st.escrowStatuses = none →
        simulateEscrow oid "ethereum" st = (st, .notFound "Order not found")
        ∧ simulateEscrow oid "stellar" st = (st, .notFound "Order not found"))
    ∧ (∀ es, lookupA oid st.escrowStatuses = some es →
        escEthExists (simulateEscrow oid "ethereum" st).1 oid = true
        ∧ oid ∉ (simulateEscrow oid "ethereum" st).1.auctionTimers
        ∧ escStExists (simulateEscrow oid "stellar" st).1 oid = true
        ∧ (∀ po, lookupA oid st.publicOrders = some po → po.status = .auction →
            statusOf (simulateEscrow oid "ethereum" st).1 oid = some .filled
            ∧ (simulateEscrow oid "ethereum" st).1.broadcasts
                = st.broadcasts ++ [.order_filled oid po.currentPrice])) := by
  constructor
  · intro hnone
    constructor
    · simp [simulateEscrow, h0, hnone]
    · simp [simulateEscrow, h0, hnone]
  · intro es hes
    have hne : ¬(oid = "" ∨ ("ethereum" : String) = "") := by
      simp [h0]
    have hnes : ¬(oid = "" ∨ ("stellar" : String) = "") := by
      simp [h0]
    refine ⟨?_, ?_, ?_, ?_⟩
    · cases hpo : lookupA oid st.publicOrders with
      | none => simp [simulateEscrow, h0, hne, hes, hpo, clearAuctionTimer, escEthExists]
      | some po =>
        by_cases hs : po.status = .auction
        · simp [simulateEscrow, h0, hne, hes, hpo, hs, clearAuctionTimer, pushMsg, escEthExists]
        · simp [simulateEscrow, h0, hne, hes, hpo, hs, clearAuctionTimer, escEthExists]
    · cases hpo : lookupA oid st.publicOrders with
      | none => simp [simulateEscrow, h0, hne, hes, hpo, clearAuctionTimer]
      | some po =>
        by_cases hs : po.status = .auction
        · simp [simulateEscrow, h0, hne, hes, hpo, hs, clearAuctionTimer, pushMsg]
        · simp [simulateEscrow, h0, hne, hes, hpo, hs, clearAuctionTimer]
    · simp [simulateEscrow, h0, hnes, hes, escStExists]
    · intro po hpo hs
      constructor
      · simp [simulateEscrow, h0, hne, hes, hpo, hs, clearAuctionTimer, pushMsg, statusOf]
      · simp [simulateEscrow, h0, hne, hes, hpo, hs, clearAuctionTimer, pushMsg]

def stSimulate : RelayerState :=
  { emptyState with
      publicOrders := [("ord-1", { pendingPO with status := .auction })]
      escrowStatuses := [("ord-1",
        { ethereumExists := false, stellarExists := false
          ethereumFinalized := false, stellarFinalized := false
          ethereumBlock := none, stellarLedger := none
          ethereumFinalityBlock := none, stellarFinalityLedger := none })]
      auctionTimers := ["ord-1"] }

/-- Witness for C10 at a concrete state holding one auction-phase order. -/
theorem simulate_escrow_endpoint_witness :
    escEthExists (simulateEscrow "ord-1" "ethereum" stSimulate).1 "ord-1" = true
    ∧ "ord-1" ∉ (simulateEscrow "ord-1" "ethereum" stSimulate).1.auctionTimers
    ∧ escStExists (simulateEscrow "ord-1" "stellar" stSimulate).1 "ord-1" = true
    ∧ statusOf (simulateEscrow "ord-1" "ethereum" stSimulate).1 "ord-1" = some .filled
    ∧ (simulateEscrow "ord-1" "ethereum" stSimulate).1.broadcasts
        = stSimulate.broadcasts ++ [.order_filled "ord-1" 1050000000]
    ∧ simulateEscrow "missing" "ethereum" stSimulate = (stSimulate, .notFound "Order not found") := by
  have h := simulate_escrow_endpoint stSimulate "ord-1" (by decide)
  have h2 := (h.2 _ rfl)
  have h3 := h2.2.2.2 { pendingPO with status := .auction } rfl rfl
  have h4 := simulate_escrow_endpoint stSimulate "missing" (by decide)
  exact ⟨h2.1, h2.2.1, h2.2.2.1, h3.1, h3.2, (h4.1 rfl).1⟩

/-! ## C1: the secret is revealed exactly once per order -/

theorem revealSecret_noop (oid : String) (st : RelayerState)
    (h : oid ∈ st.secretsRevealed) : revealSecret oid st = st := by
  cases hs : lookupA oid st.signedOrders <;> cases hp : lookupA oid st.publicOrders <;>
    simp [revealSecret, hs, hp, h]

theorem revealSecret_iterate_noop (oid : String) (st : RelayerState)
    (h : oid ∈ st.secretsRevealed) (n : Nat) : (revealSecret oid)^[n] st = st := by
  induction n with
  | zero => rfl
  | succ k ih => rw [Function.iterate_succ_apply, revealSecret_noop oid st h, ih]

theorem revealSecret_step (oid : String) (st : RelayerState)
    (so : FusionPlusOrder) (po : PublicOrder)
    (hs : lookupA oid st.signedOrders = some so)
    (hp : lookupA oid st.publicOrders = some po)
    (hnot : oid ∉ st.secretsRevealed) :
    revealSecret oid st =
      { st with
          secretsRevealed := oid :: st.secretsRevealed
          publicOrders := setA oid { po with status := .secret_revealed } st.publicOrders
          broadcasts := st.broadcasts ++ [.secret_revealed oid so.secret]
          auctionTimers := eraseT oid st.auctionTimers
          escrowMonitors := eraseT oid st.escrowMonitors
          pendingCompletions := oid :: st.pendingCompletions } := by
  simp [revealSecret, hs, hp, hnot, pushMsg, clearAuctionTimer, clearMonitor]

/-- C1: for an accepted order, `revealSecret` is a no-op once the order is in
the revealed set, and otherwise inserts the order id and sets the public
status to `secret_revealed` along with the broadcast — so invoking the reveal
path any number of times (n ≥ 1) produces exactly one `secret_revealed`
broadcast and exactly one insertion into the revealed set. -/
theorem reveal_exactly_once (st : RelayerState) (oid : String) (n : Nat)
    (so : FusionPlusOrder) (po : PublicOrder)
    (hs : lookupA oid st.signedOrders = some so)
    (hp : lookupA oid st.publicOrders = some po)
    (hnot : oid ∉ st.secretsRevealed) (hn : 1 ≤ n) :
    secretRevealCount oid ((revealSecret oid)^[n] st).broadcasts
        = secretRevealCount oid st.broadcasts + 1
    ∧ ((revealSecret oid)^[n] st).secretsRevealed.count oid
        = st.secretsRevealed.count oid + 1
    ∧ statusOf ((revealSecret oid)^[n] st) oid = some .secret_revealed
    ∧ (∀ st2 : RelayerState, oid ∈ st2.secretsRevealed → revealSecret oid st2 = st2) := by
  obtain ⟨k, rfl⟩ : ∃ k, n = k + 1 := ⟨n - 1, (Nat.succ_pred_eq_of_pos hn).symm⟩
  rw [Function.iterate_succ_apply, revealSecret_step oid st so po hs hp hnot,
    revealSecret_iterate_noop _ _ (by simp) k]
  refine ⟨?_, ?_, ?_, fun st2 h2 => revealSecret_noop oid st2 h2⟩
  · simp [secretRevealCount, List.countP_append, List.countP_cons, isSecretReveal]
  · simp [List.count_cons]
  · simp [statusOf]

def stReveal : RelayerState :=
  { emptyState with
      signedOrders := [("ord-1", goodOrder)]
      publicOrders := [("ord-1", { pendingPO with status := .escrows_ready })]
      escrowMonitors := ["ord-1"] }

/-- Witness for C1: three consecutive reveal invocations on a concrete
ready-to-reveal order yield one broadcast and one insertion. -/
theorem reveal_exactly_once_witness :
    secretRevealCount "ord-1" ((revealSecret "ord-1")^[3] stReveal).broadcasts
        = secretRevealCount "ord-1" stReveal.broadcasts + 1
    ∧ ((revealSecret "ord-1")^[3] stReveal).secretsRevealed.count "ord-1"
        = stReveal.secretsRevealed.count "ord-1" + 1
    ∧ statusOf ((revealSecret "ord-1")^[3] stReveal) "ord-1" = some .secret_revealed := by
  have h := reveal_exactly_once stReveal "ord-1" 3 goodOrder
    { pendingPO with status := .escrows_ready } rfl rfl (by decide) (by decide)
  exact ⟨h.1, h.2.1, h.2.2.1⟩

/-! ## C4: auction ticks write a non-increasing price clamped at the floor -/

def tickPrice (so : FusionPlusOrder) (cur : PublicOrder) (now : Int) : Rat :=
  max (so.startPrice -
        ((now - cur.auctionStartTime : Int) : Rat) / (AUCTION_DURATION : Rat)
          * (so.startPrice - so.minPrice))
    so.minPrice

theorem auctionTickBody_price (now : Int) (oid : String) (st : RelayerState)
    (cur : PublicOrder) (so : FusionPlusOrder)
    (hpo : lookupA oid st.publicOrders = some cur)
    (hst : cur.status = .auction)
    (hesc : escEthExists st oid = false)
    (hnow : ¬now > cur.auctionEndTime)
    (hso : lookupA oid st.signedOrders = some so) :
    auctionTickBody now oid st =
      pushMsg (.price_update oid (tickPrice so cur now) (cur.auctionEndTime - now))
        { st with publicOrders := setA oid { cur with currentPrice := tickPrice so cur now } st.publicOrders } := by
  cases hesc2 : lookupA oid st.escrowStatuses with
  | none =>
    simp [auctionTickBody, hpo, hst, hesc2, hnow, hso, tickPrice]
  | some es =>
    have hfalse : es.ethereumExists = false := by
      have := hesc
      rw [escEthExists, hesc2] at this
      exact this
    simp [auctionTickBody, hpo, hst, hesc2, hfalse, hnow, hso, tickPrice]

theorem tickPrice_mono (so : FusionPlusOrder) (cur : PublicOrder) (t1 t2 : Int)
    (hm : so.minPrice ≤ so.startPrice) (h : t1 ≤ t2) :
    tickPrice so cur t2 ≤ tickPrice so cur t1 ∧ so.minPrice ≤ tickPrice so cur t2 := by
  constructor
  · have hD : (0 : Rat) < (AUCTION_DURATION : Rat) := by norm_num [AUCTION_DURATION]
    have hnum : ((t1 - cur.auctionStartTime : Int) : Rat) ≤ ((t2 - cur.auctionStartTime : Int) : Rat) := by
      exact_mod_cast Int.sub_le_sub_right h cur.auctionStartTime
    have hdiv : ((t1 - cur.auctionStartTime : Int) : Rat) / (AUCTION_DURATION : Rat)
        ≤ ((t2 - cur.auctionStartTime : Int) : Rat) / (AUCTION_DURATION : Rat) :=
      (div_le_div_iff_of_pos_right hD).mpr hnum
    have hsm : (0 : Rat) ≤ so.startPrice - so.minPrice := by linarith
    have hmul := mul_le_mul_of_nonneg_right hdiv hsm
    exact max_le_max (by linarith) le_rfl
  · exact le_max_right _ _

/-- C4: for an order in the `auction` status, two successive auction ticks at
times t1 ≤ t2 (both within the auction window, source escrow not yet seen)
write prices computed by linear decay clamped at the floor; the later price is
no greater than the earlier one, and neither falls below the floor price. -/
theorem auction_price_monotone (st : RelayerState) (oid : String)
    (so : FusionPlusOrder) (cur : PublicOrder) (t1 t2 : Int)
    (hso : lookupA oid st.signedOrders = some so)
    (hpo : lookupA oid st.publicOrders = some cur)
    (hst : cur.status = .auction)
    (hesc : escEthExists st oid = false)
    (htm : oid ∈ st.auctionTimers)
    (hm : so.minPrice ≤ so.startPrice)
    (h12 : t1 ≤ t2) (h2e : t2 ≤ cur.auctionEndTime) :
    priceOf (step (.auctionTick t1 oid) st) oid = some (tickPrice so cur t1)
    ∧ priceOf (step (.auctionTick t2 oid) (step (.auctionTick t1 oid) st)) oid
        = some (tickPrice so cur t2)
    ∧ tickPrice so cur t2 ≤ tickPrice so cur t1
    ∧ so.minPrice ≤ tickPrice so cur t2
    ∧ so.minPrice ≤ tickPrice so cur t1 := by
  have h1e : ¬t1 > cur.auctionEndTime := by omega
  have h2e' : ¬t2 > cur.auctionEndTime := by omega
  have hstep1 : step (.auctionTick t1 oid) st = auctionTickBody t1 oid st := by
    simp [step, htm]
  have hbody1 := auctionTickBody_price t1 oid st cur so hpo hst hesc h1e hso
  set cur1 : PublicOrder := { cur with currentPrice := tickPrice so cur t1 } with hcur1
  have hst1 : step (.auctionTick t1 oid) st =
      pushMsg (.price_update oid (tickPrice so cur t1) (cur.auctionEndTime - t1))
        { st with publicOrders := setA oid cur1 st.publicOrders } := by
    rw [hstep1, hbody1]
  have hpo1 : lookupA oid (step (.auctionTick t1 oid) st).publicOrders = some cur1 := by
    rw [hst1]; simp [pushMsg]
  have hesc1 : escEthExists (step (.auctionTick t1 oid) st) oid = false := by
    rw [hst1]; simpa [pushMsg, escEthExists] using hesc
  have hso1 : lookupA oid (step (.auctionTick t1 oid) st).signedOrders = some so := by
    rw [hst1]; simpa [pushMsg] using hso
  have htm1 : oid ∈ (step (.auctionTick t1 oid) st).auctionTimers := by
    rw [hst1]; simpa [pushMsg] using htm
  have hstep2 : step (.auctionTick t2 oid) (step (.auctionTick t1 oid) st)
      = auctionTickBody t2 oid (step (.auctionTick t1 oid) st) := by
    rw [hst1]
    simp [step, pushMsg, htm]
  have hbody2 := auctionTickBody_price t2 oid (step (.auctionTick t1 oid) st) cur1 so
    hpo1 (by simp [hcur1, hst]) hesc1 (by simpa [hcur1] using h2e') hso1
  have hmono := tickPrice_mono so cur t1 t2 hm h12
  have htp : tickPrice so cur1 t2 = tickPrice so cur t2 := by simp [tickPrice, hcur1]
  refine ⟨?_, ?_, hmono.1, hmono.2, (tickPrice_mono so cur t1 t1 hm le_rfl).2⟩
  · rw [hst1]; simp [pushMsg, priceOf, hcur1]
  · rw [hstep2, hbody2]; simp [pushMsg, priceOf, htp]

def stAuction : RelayerState :=
  { emptyState with
      signedOrders := [("ord-1", goodOrder)]
      publicOrders := [("ord-1", { pendingPO with status := .auction })]
      escrowStatuses := [("ord-1",
        { ethereumExists := false, stellarExists := false
          ethereumFinalized := false, stellarFinalized := false
          ethereumBlock := none, stellarLedger := none
          ethereumFinalityBlock := none, stellarFinalityLedger := none })]
      auctionTimers := ["ord-1"] }

/-- Witness for C4: two ticks at 60s and 120s into a concrete auction. -/
theorem auction_price_monotone_witness :
    priceOf (step (.auctionTick 90000 "ord-1") stAuction) "ord-1"
        = some (tickPrice goodOrder { pendingPO with status := .auction } 90000)
    ∧ tickPrice goodOrder { pendingPO with status := .auction } 150000
        ≤ tickPrice goodOrder { pendingPO with status := .auction } 90000
    ∧ goodOrder.minPrice ≤ tickPrice goodOrder { pendingPO with status := .auction } 150000 := by
  have h := auction_price_monotone stAuction "ord-1" goodOrder
    { pendingPO with status := .auction } 90000 150000 rfl rfl rfl (by decide)
    (by decide) (by norm_num [goodOrder]) (by norm_num) (by norm_num [pendingPO])
  exact ⟨h.1, h.2.2.1, h.2.2.2.1⟩

/-! ## Structural lemmas about the escrow-monitor tick -/

theorem revealSecret_escrow (oid : String) (st : RelayerState) :
    (revealSecret oid st).escrowStatuses = st.escrowStatuses := by
  cases hs : lookupA oid st.signedOrders <;> cases hp : lookupA oid st.publicOrders <;>
    by_cases h : oid ∈ st.secretsRevealed <;>
      simp [revealSecret, hs, hp, h, pushMsg, clearAuctionTimer, clearMonitor]

theorem monitorEthStage_secrets (e : Bool) (b : Int) (oid : String) (st : RelayerState) :
    (monitorEthStage e b oid st).secretsRevealed = st.secretsRevealed := by
  cases hes : lookupA oid st.escrowStatuses <;> cases hpo : lookupA oid st.publicOrders <;>
    simp only [monitorEthStage, hes, hpo] <;> try rfl
  split
  · rfl
  · split
    · split <;> simp [pushMsg, clearAuctionTimer]
    · rfl

theorem monitorStellarStage_secrets (srs : Bool) (oid : String) (st : RelayerState) :
    (monitorStellarStage srs oid st).secretsRevealed = st.secretsRevealed := by
  cases hes : lookupA oid st.escrowStatuses <;> simp only [monitorStellarStage, hes] <;> try rfl
  split <;> rfl

theorem monitorStellarStage_public (srs : Bool) (oid : String) (st : RelayerState) :
    (monitorStellarStage srs oid st).publicOrders = st.publicOrders := by
  cases hes : lookupA oid st.escrowStatuses <;> simp only [monitorStellarStage, hes] <;> try rfl
  split <;> rfl

theorem monitorStellarStage_signed (srs : Bool) (oid : String) (st : RelayerState) :
    (monitorStellarStage srs oid st).signedOrders = st.signedOrders := by
  cases hes : lookupA oid st.escrowStatuses <;> simp only [monitorStellarStage, hes] <;> try rfl
  split <;> rfl

theorem checkFinalityStep_fields (fh : Option Int) (ns : Int) (es : EscrowStatus) :
    (checkFinalityStep fh ns es).2.ethereumFinalityBlock = es.ethereumFinalityBlock
    ∧ (checkFinalityStep fh ns es).2.stellarFinalityLedger = es.stellarFinalityLedger
    ∧ (checkFinalityStep fh ns es).2.ethereumExists = es.ethereumExists
    ∧ (checkFinalityStep fh ns es).2.stellarExists = es.stellarExists := by
  cases fh with
  | none => simp [checkFinalityStep]
  | some hd =>
    simp only [checkFinalityStep]
    split <;> simp

theorem checkFinalityStep_true (fh : Option Int) (ns : Int) (es : EscrowStatus)
    (h : (checkFinalityStep fh ns es).1 = true) :
    ∃ hd, fh = some hd ∧ hd > jsOrI es.ethereumFinalityBlock MAX_SAFE_INTEGER
      ∧ ns ≥ jsOrI es.stellarFinalityLedger 0 := by
  cases fh with
  | none => simp [checkFinalityStep] at h
  | some hd =>
    refine ⟨hd, rfl, ?_⟩
    simp only [checkFinalityStep] at h
    split at h <;> simpa using h

theorem monitorEthStage_escrow (e : Bool) (b : Int) (oid : String) (st : RelayerState)
    (es : EscrowStatus) (po : PublicOrder)
    (hes : lookupA oid st.escrowStatuses = some es)
    (hpo : lookupA oid st.publicOrders = some po) :
    ∃ esA, lookupA oid (monitorEthStage e b oid st).escrowStatuses = some esA
      ∧ esA.stellarExists = es.stellarExists
      ∧ esA.stellarFinalityLedger = es.stellarFinalityLedger
      ∧ (es.ethereumExists = true → esA = es)
      ∧ (es.ethereumExists = false → esA.ethereumExists = e)
      ∧ (es.ethereumExists = false → e = true → jsFalsyOpt es.ethereumBlock = true →
          esA.ethereumFinalityBlock = some (b + ETHEREUM_FINALITY_BLOCKS)) := by
  by_cases hex : es.ethereumExists = true
  · refine ⟨es, ?_, rfl, rfl, fun _ => rfl, fun hc => (by rw [hc] at hex; exact absurd hex (by simp)),
      fun hc => (by rw [hc] at hex; exact absurd hex (by simp))⟩
    simp [monitorEthStage, hes, hpo, hex]
  · have hex' : es.ethereumExists = false := by simpa using hex
    cases e with
    | false =>
      refine ⟨{ es with ethereumExists := false }, ?_, rfl, rfl,
        fun hc => absurd hc hex, fun _ => rfl, fun _ hc => by cases hc⟩
      simp [monitorEthStage, hes, hpo, hex', checkEthereumEscrowStep]
    | true =>
      by_cases hblk : jsFalsyOpt es.ethereumBlock = true
      · refine ⟨{ es with ethereumExists := true, ethereumBlock := some b, ethereumFinalityBlock := some (b + ETHEREUM_FINALITY_BLOCKS) }, ?_, rfl, rfl,
          fun hc => absurd hc hex, fun _ => rfl, fun _ _ _ => rfl⟩
        by_cases hsa : po.status = .auction <;>
          simp [monitorEthStage, hes, hpo, hex', checkEthereumEscrowStep, hblk, hsa,
            clearAuctionTimer, pushMsg]
      · have hblk' : jsFalsyOpt es.ethereumBlock = false := by simpa using hblk
        refine ⟨{ es with ethereumExists := true }, ?_, rfl, rfl,
          fun hc => absurd hc hex, fun _ => rfl, fun _ _ hc => by rw [hc] at hblk'; cases hblk'⟩
        by_cases hsa : po.status = .auction <;>
          simp [monitorEthStage, hes, hpo, hex', checkEthereumEscrowStep, hblk', hblk, hsa,
            clearAuctionTimer, pushMsg]

theorem monitorStellarStage_escrow (srs : Bool) (oid : String) (st : RelayerState)
    (es : EscrowStatus) (hes : lookupA oid st.escrowStatuses = some es) :
    lookupA oid (monitorStellarStage srs oid st).escrowStatuses
      = some (if es.stellarExists then es else { es with stellarExists := srs }) := by
  by_cases hst : es.stellarExists = true
  · simp [monitorStellarStage, hes, hst]
  · have hst' : es.stellarExists = false := by simpa using hst
    simp [monitorStellarStage, hes, hst']

theorem monitorFinalStage_escrow (fh : Option Int) (ns : Int) (oid : String)
    (st : RelayerState) (es : EscrowStatus)
    (hes : lookupA oid st.escrowStatuses = some es) :
    ∃ esF, lookupA oid (monitorFinalStage fh ns oid st).escrowStatuses = some esF
      ∧ esF.ethereumExists = es.ethereumExists
      ∧ esF.stellarExists = es.stellarExists
      ∧ esF.ethereumFinalityBlock = es.ethereumFinalityBlock
      ∧ esF.stellarFinalityLedger = es.stellarFinalityLedger := by
  cases hpo : lookupA oid st.publicOrders with
  | none =>
    exact ⟨es, by simp [monitorFinalStage, hes, hpo], rfl, rfl, rfl, rfl⟩
  | some po =>
    by_cases hboth : es.ethereumExists = true ∧ es.stellarExists = true
    · have hff := checkFinalityStep_fields fh ns es
      by_cases hreach : (checkFinalityStep fh ns es).1 = true
      · refine ⟨(checkFinalityStep fh ns es).2, ?_, hff.2.2.1, hff.2.2.2, hff.1, hff.2.1⟩
        by_cases hpend : po.status ≠ .escrows_pending ∧ po.status ≠ .escrows_ready
        · simp [monitorFinalStage, hes, hpo, hboth.1, hboth.2, hpend, hreach,
            revealSecret_escrow]
        · simp [monitorFinalStage, hes, hpo, hboth.1, hboth.2, hpend, hreach,
            revealSecret_escrow]
          split <;> simp
      · have hreach' : (checkFinalityStep fh ns es).1 = false := by simpa using hreach
        refine ⟨(checkFinalityStep fh ns es).2, ?_, hff.2.2.1, hff.2.2.2, hff.1, hff.2.1⟩
        by_cases hpend : po.status ≠ .escrows_pending ∧ po.status ≠ .escrows_ready
        · simp [monitorFinalStage, hes, hpo, hboth.1, hboth.2, hpend, hreach', hreach]
        · simp [monitorFinalStage, hes, hpo, hboth.1, hboth.2, hpend, hreach', hreach]
    · refine ⟨es, ?_, rfl, rfl, rfl, rfl⟩
      simp only [monitorFinalStage, hes, hpo]
      rw [if_neg (by simpa using hboth)]
      exact hes

theorem monitorTick_decomp (e : Bool) (b : Int) (srs : Bool) (fh : Option Int) (ns : Int)
    (oid : String) (st : RelayerState) (hmon : oid ∈ st.escrowMonitors)
    (hes : (lookupA oid st.escrowStatuses).isSome = true)
    (hpo : (lookupA oid st.publicOrders).isSome = true) :
    step (.monitorTick e b srs fh ns oid) st
      = monitorFinalStage fh ns oid (monitorStellarStage srs oid (monitorEthStage e b oid st)) := by
  obtain ⟨es, hes'⟩ := Option.isSome_iff_exists.mp hes
  obtain ⟨po, hpo'⟩ := Option.isSome_iff_exists.mp hpo
  simp [step, hmon, monitorTickBody, hes', hpo']

theorem monitorFinalStage_reveal_reached (fh : Option Int) (ns : Int) (oid : String)
    (st : RelayerState) (es : EscrowStatus)
    (hes : lookupA oid st.escrowStatuses = some es)
    (hrev : oid ∈ (monitorFinalStage fh ns oid st).secretsRevealed) :
    oid ∈ st.secretsRevealed
    ∨ ((checkFinalityStep fh ns es).1 = true ∧ es.ethereumExists = true ∧ es.stellarExists = true) := by
  cases hpo : lookupA oid st.publicOrders with
  | none => left; simpa [monitorFinalStage, hes, hpo] using hrev
  | some po =>
    by_cases hboth : es.ethereumExists = true ∧ es.stellarExists = true
    · by_cases hreach : (checkFinalityStep fh ns es).1 = true
      · exact Or.inr ⟨hreach, hboth.1, hboth.2⟩
      · left
        have hreach' : (checkFinalityStep fh ns es).1 = false := by simpa using hreach
        by_cases hpend : po.status ≠ .escrows_pending ∧ po.status ≠ .escrows_ready
        · simpa [monitorFinalStage, hes, hpo, hboth.1, hboth.2, hpend, hreach', hreach] using hrev
        · simpa [monitorFinalStage, hes, hpo, hboth.1, hboth.2, hpend, hreach', hreach] using hrev
    · left
      have hstage : monitorFinalStage fh ns oid st = st := by
        simp only [monitorFinalStage, hes, hpo]
        rw [if_neg (by simpa using hboth)]
      rw [hstage] at hrev
      exact hrev

theorem monitorTick_reveal_guard (e : Bool) (b : Int) (srs : Bool) (fh : Option Int) (ns : Int)
    (oid : String) (st : RelayerState)
    (hnot : oid ∉ st.secretsRevealed)
    (hrev : oid ∈ (step (.monitorTick e b srs fh ns oid) st).secretsRevealed) :
    ∃ esF, lookupA oid (step (.monitorTick e b srs fh ns oid) st).escrowStatuses = some esF
      ∧ esF.ethereumExists = true ∧ esF.stellarExists = true
      ∧ ∃ hd, fh = some hd ∧ hd > jsOrI esF.ethereumFinalityBlock MAX_SAFE_INTEGER
          ∧ ns ≥ jsOrI esF.stellarFinalityLedger 0 := by
  by_cases hmon : oid ∈ st.escrowMonitors
  case neg =>
    rw [show step (.monitorTick e b srs fh ns oid) st = st by simp [step, hmon]] at hrev
    exact absurd hrev hnot
  cases hes : lookupA oid st.escrowStatuses with
  | none =>
    rw [show step (.monitorTick e b srs fh ns oid) st = clearMonitor oid st by
      simp [step, hmon, monitorTickBody, hes]] at hrev
    exact absurd hrev hnot
  | some es =>
  cases hpo : lookupA oid st.publicOrders with
  | none =>
    rw [show step (.monitorTick e b srs fh ns oid) st = clearMonitor oid st by
      simp [step, hmon, monitorTickBody, hes, hpo]] at hrev
    exact absurd hrev hnot
  | some po =>
    have hdec := monitorTick_decomp e b srs fh ns oid st hmon (by rw [hes]; rfl) (by rw [hpo]; rfl)
    rw [hdec] at hrev ⊢
    obtain ⟨esA, hA, _, _, _, _, _⟩ := monitorEthStage_escrow e b oid st es po hes hpo
    have hB := monitorStellarStage_escrow srs oid (monitorEthStage e b oid st) esA hA
    have hnotB : oid ∉ (monitorStellarStage srs oid (monitorEthStage e b oid st)).secretsRevealed := by
      rw [monitorStellarStage_secrets, monitorEthStage_secrets]; exact hnot
    rcases monitorFinalStage_reveal_reached fh ns oid _ _ hB hrev with h | ⟨hre, hbe, hbs⟩
    · exact absurd h hnotB
    · obtain ⟨esF, hF, hFe, hFs, hFb, hFl⟩ := monitorFinalStage_escrow fh ns oid _ _ hB
      obtain ⟨hd, hhd, h1, h2⟩ := checkFinalityStep_true fh ns _ hre
      exact ⟨esF, hF, by rw [hFe]; exact hbe, by rw [hFs]; exact hbs, hd, hhd,
        by rw [hFb]; exact h1, by rw [hFl]; exact h2⟩

/-! ## C2: the finality gate and threshold capture -/

def esEmpty : EscrowStatus :=
  { ethereumExists := false, stellarExists := false
    ethereumFinalized := false, stellarFinalized := false
    ethereumBlock := none, stellarLedger := none
    ethereumFinalityBlock := none, stellarFinalityLedger := none }

def stMonitor : RelayerState :=
  { emptyState with
      signedOrders := [("ord-1", goodOrder)]
      publicOrders := [("ord-1", { pendingPO with status := .filled })]
      escrowStatuses := [("ord-1", esEmpty)]
      escrowMonitors := ["ord-1"] }

/-- C2 counterexample: a monitor tick whose Stellar (destination) query comes
back positive sets the Stellar-existence flag to true but does NOT capture a
destination finality threshold — `stellarFinalityLedger` stays `none` — so the
claimed "capture its finality threshold" step never happens for the
destination chain. -/
theorem stellar_threshold_not_captured :
    (lookupA "ord-1"
        (step (.monitorTick false 0 true (some 100) 50 "ord-1") stMonitor).escrowStatuses).map
        (fun es => (es.stellarExists, es.stellarFinalityLedger))
      = some (true, none) := by
  rfl

/-- C2 (amended): the reveal coordinator runs only when both escrows exist and
`checkFinality` holds, where finality is computed as
`currentSourceHead > sourceFinalityThreshold && currentDestinationTime >= destinationFinalityThreshold`
with the source threshold defaulting to MAX_SAFE_INTEGER when uncaptured and
the destination threshold defaulting to 0; the source (Ethereum) threshold is
captured when source existence is first observed, but a positive destination
(Stellar) query only sets existence true and never captures a destination
threshold, leaving the destination predicate comparing against 0. -/
theorem finality_gate (e : Bool) (b : Int) (srs : Bool) (fh : Option Int) (ns : Int)
    (oid : String) (st : RelayerState) (es : EscrowStatus) (po : PublicOrder)
    (hes : lookupA oid st.escrowStatuses = some es)
    (hpo : lookupA oid st.publicOrders = some po)
    (hmon : oid ∈ st.escrowMonitors) :
    (oid ∉ st.secretsRevealed →
      oid ∈ (step (.monitorTick e b srs fh ns oid) st).secretsRevealed →
      ∃ esF, lookupA oid (step (.monitorTick e b srs fh ns oid) st).escrowStatuses = some esF
        ∧ esF.ethereumExists = true ∧ esF.stellarExists = true
        ∧ ∃ hd, fh = some hd ∧ hd > jsOrI esF.ethereumFinalityBlock MAX_SAFE_INTEGER
            ∧ ns ≥ jsOrI esF.stellarFinalityLedger 0)
    ∧ (es.stellarExists = false → srs = true →
        ∃ esF, lookupA oid (step (.monitorTick e b srs fh ns oid) st).escrowStatuses = some esF
          ∧ esF.stellarExists = true ∧ esF.stellarFinalityLedger = es.stellarFinalityLedger)
    ∧ (es.ethereumExists = false → e = true → jsFalsyOpt es.ethereumBlock = true →
        ∃ esF, lookupA oid (step (.monitorTick e b srs fh ns oid) st).escrowStatuses = some esF
          ∧ esF.ethereumExists = true
          ∧ esF.ethereumFinalityBlock = some (b + ETHEREUM_FINALITY_BLOCKS)) := by
  have hdec := monitorTick_decomp e b srs fh ns oid st hmon (by rw [hes]; rfl) (by rw [hpo]; rfl)
  obtain ⟨esA, hA, hAs, hAl, hAeq, hAe, hAcap⟩ := monitorEthStage_escrow e b oid st es po hes hpo
  have hB := monitorStellarStage_escrow srs oid (monitorEthStage e b oid st) esA hA
  refine ⟨fun hnot hrev => monitorTick_reveal_guard e b srs fh ns oid st hnot hrev, ?_, ?_⟩
  · intro hsx hsr
    rw [hdec]
    have hAs' : esA.stellarExists = false := by rw [hAs]; exact hsx
    have hesB : lookupA oid (monitorStellarStage srs oid (monitorEthStage e b oid st)).escrowStatuses
        = some { esA with stellarExists := srs } := by
      rw [hB, if_neg (by simp [hAs'])]
    obtain ⟨esF, hF, _, hFs, _, hFl⟩ :=
      monitorFinalStage_escrow fh ns oid _ _ hesB
    refine ⟨esF, hF, ?_, ?_⟩
    · rw [hFs]; simpa using hsr
    · rw [hFl]; simpa using hAl
  · intro hex he hblk
    rw [hdec]
    have hcap := hAcap hex he hblk
    have hAe' := hAe hex
    have hethB : ∀ esB : EscrowStatus,
        esB = (if esA.stellarExists then esA else { esA with stellarExists := srs }) →
        esB.ethereumExists = esA.ethereumExists
        ∧ esB.ethereumFinalityBlock = esA.ethereumFinalityBlock := by
      intro esB hesB
      rw [hesB]
      split <;> simp
    obtain ⟨esF, hF, hFe, _, hFb, _⟩ := monitorFinalStage_escrow fh ns oid _ _ hB
    have hq := hethB _ rfl
    refine ⟨esF, hF, ?_, ?_⟩
    · rw [hFe, hq.1, hAe']; exact he
    · rw [hFb, hq.2]; exact hcap

/-- Witness for C2 (amended): at a concrete monitored order with no escrows
yet, a tick with a positive Ethereum query captures the source threshold
(block 100 + 2 finality blocks) and a tick with a positive Stellar query sets
existence without capturing a destination threshold. -/
theorem finality_gate_witness :
    (∃ esF, lookupA "ord-1"
        (step (.monitorTick false 0 true (some 100) 50 "ord-1") stMonitor).escrowStatuses = some esF
        ∧ esF.stellarExists = true ∧ esF.stellarFinalityLedger = esEmpty.stellarFinalityLedger)
    ∧ (∃ esF, lookupA "ord-1"
        (step (.monitorTick true 100 false (some 100) 50 "ord-1") stMonitor).escrowStatuses = some esF
        ∧ esF.ethereumExists = true
        ∧ esF.ethereumFinalityBlock = some (100 + ETHEREUM_FINALITY_BLOCKS)) := by
  have h1 := finality_gate false 0 true (some 100) 50 "ord-1" stMonitor esEmpty
    { pendingPO with status := .filled } rfl rfl (by decide)
  have h2 := finality_gate true 100 false (some 100) 50 "ord-1" stMonitor esEmpty
    { pendingPO with status := .filled } rfl rfl (by decide)
  exact ⟨h1.2.1 rfl rfl, h2.2.2 rfl rfl rfl⟩

/-! ## Frame lemmas: which operations touch the timer-creation log -/

@[simp] theorem revealSecret_createdTimers (oid2 : String) (st : RelayerState) :
    (revealSecret oid2 st).createdTimers = st.createdTimers := by
  unfold revealSecret pushMsg clearAuctionTimer clearMonitor
  repeat' (first | split | dsimp only)
  all_goals rfl

@[simp] theorem revealSecret_pendingA (oid2 : String) (st : RelayerState) :
    (revealSecret oid2 st).pendingAuctionStart = st.pendingAuctionStart := by
  unfold revealSecret pushMsg clearAuctionTimer clearMonitor
  repeat' (first | split | dsimp only)
  all_goals rfl

@[simp] theorem auctionTickBody_createdTimers (now : Int) (oid2 : String) (st : RelayerState) :
    (auctionTickBody now oid2 st).createdTimers = st.createdTimers := by
  unfold auctionTickBody pushMsg clearAuctionTimer
  repeat' (first | split | dsimp only)
  all_goals rfl

@[simp] theorem auctionTickBody_pendingA (now : Int) (oid2 : String) (st : RelayerState) :
    (auctionTickBody now oid2 st).pendingAuctionStart = st.pendingAuctionStart := by
  unfold auctionTickBody pushMsg clearAuctionTimer
  repeat' (first | split | dsimp only)
  all_goals rfl

@[simp] theorem monitorEthStage_createdTimers (e : Bool) (b : Int) (oid2 : String)
    (st : RelayerState) : (monitorEthStage e b oid2 st).createdTimers = st.createdTimers := by
  unfold monitorEthStage pushMsg clearAuctionTimer
  repeat' (first | split | dsimp only)
  all_goals rfl

@[simp] theorem monitorEthStage_pendingA (e : Bool) (b : Int) (oid2 : String)
    (st : RelayerState) : (monitorEthStage e b oid2 st).pendingAuctionStart = st.pendingAuctionStart := by
  unfold monitorEthStage pushMsg clearAuctionTimer
  repeat' (first | split | dsimp only)
  all_goals rfl

@[simp] theorem monitorStellarStage_createdTimers (srs : Bool) (oid2 : String)
    (st : RelayerState) : (monitorStellarStage srs oid2 st).createdTimers = st.createdTimers := by
  unfold monitorStellarStage
  repeat' (first | split | dsimp only)
  all_goals rfl

@[simp] theorem monitorStellarStage_pendingA (srs : Bool) (oid2 : String)
    (st : RelayerState) : (monitorStellarStage srs oid2 st).pendingAuctionStart = st.pendingAuctionStart := by
  unfold monitorStellarStage
  repeat' (first | split | dsimp only)
  all_goals rfl

@[simp] theorem monitorFinalStage_createdTimers (fh : Option Int) (ns : Int) (oid2 : String)
    (st : RelayerState) : (monitorFinalStage fh ns oid2 st).createdTimers = st.createdTimers := by
  unfold monitorFinalStage
  repeat' (first | split | dsimp only)
  all_goals simp

@[simp] theorem monitorFinalStage_pendingA (fh : Option Int) (ns : Int) (oid2 : String)
    (st : RelayerState) : (monitorFinalStage fh ns oid2 st).pendingAuctionStart = st.pendingAuctionStart := by
  unfold monitorFinalStage
  repeat' (first | split | dsimp only)
  all_goals simp

@[simp] theorem monitorTickBody_createdTimers (e : Bool) (b : Int) (srs : Bool)
    (fh : Option Int) (ns : Int) (oid2 : String) (st : RelayerState) :
    (monitorTickBody e b srs fh ns oid2 st).createdTimers = st.createdTimers := by
  unfold monitorTickBody clearMonitor
  repeat' (first | split | dsimp only)
  all_goals simp

@[simp] theorem monitorTickBody_pendingA (e : Bool) (b : Int) (srs : Bool)
    (fh : Option Int) (ns : Int) (oid2 : String) (st : RelayerState) :
    (monitorTickBody e b srs fh ns oid2 st).pendingAuctionStart = st.pendingAuctionStart := by
  unfold monitorTickBody clearMonitor
  repeat' (first | split | dsimp only)
  all_goals simp

@[simp] theorem deferredCompleteBody_createdTimers (oid2 : String) (st : RelayerState) :
    (deferredCompleteBody oid2 st).createdTimers = st.createdTimers := by
  unfold deferredCompleteBody
  repeat' (first | split | dsimp only)
  all_goals rfl

@[simp] theorem deferredCompleteBody_pendingA (oid2 : String) (st : RelayerState) :
    (deferredCompleteBody oid2 st).pendingAuctionStart = st.pendingAuctionStart := by
  unfold deferredCompleteBody
  repeat' (first | split | dsimp only)
  all_goals rfl

@[simp] theorem simulateEscrow_createdTimers (oid2 chain : String) (st : RelayerState) :
    (simulateEscrow oid2 chain st).1.createdTimers = st.createdTimers := by
  unfold simulateEscrow pushMsg clearAuctionTimer
  repeat' (first | split | dsimp only)
  all_goals rfl

@[simp] theorem simulateEscrow_pendingA (oid2 chain : String) (st : RelayerState) :
    (simulateEscrow oid2 chain st).1.pendingAuctionStart = st.pendingAuctionStart := by
  unfold simulateEscrow pushMsg clearAuctionTimer
  repeat' (first | split | dsimp only)
  all_goals rfl

@[simp] theorem handleRegister_createdTimers (rid addr : String) (now : Int) (st : RelayerState) :
    (handleRegister rid addr now st).1.createdTimers = st.createdTimers := rfl

@[simp] theorem handleRegister_pendingA (rid addr : String) (now : Int) (st : RelayerState) :
    (handleRegister rid addr now st).1.pendingAuctionStart = st.pendingAuctionStart := rfl

/-! ## C9: timers are not created at most once per kind -/

def auctionCreated (oid : String) (st : RelayerState) : Nat :=
  createdCount oid TimerKind.auction st.createdTimers

def monitorCreated (oid : String) (st : RelayerState) : Nat :=
  createdCount oid TimerKind.monitor st.createdTimers

theorem createdCount_append_auction (oid oid2 : String) (l : List (String × TimerKind)) :
    createdCount oid TimerKind.auction (l ++ [(oid2, TimerKind.auction)])
      = createdCount oid TimerKind.auction l + (if oid2 = oid then 1 else 0) := by
  by_cases h : oid2 = oid <;> simp [createdCount, List.countP_append, List.countP_cons, h]

theorem createdCount_append_monitor_auction (oid oid2 : String) (l : List (String × TimerKind)) :
    createdCount oid TimerKind.auction (l ++ [(oid2, TimerKind.monitor)])
      = createdCount oid TimerKind.auction l := by
  simp [createdCount, List.countP_append, List.countP_cons]

theorem createdCount_append_monitor (oid oid2 : String) (l : List (String × TimerKind)) :
    createdCount oid TimerKind.monitor (l ++ [(oid2, TimerKind.monitor)])
      = createdCount oid TimerKind.monitor l + (if oid2 = oid then 1 else 0) := by
  by_cases h : oid2 = oid <;> simp [createdCount, List.countP_append, List.countP_cons, h]

theorem startDutchAuction_created (oid oid2 : String) (st : RelayerState) :
    auctionCreated oid (startDutchAuction oid2 st)
        ≤ auctionCreated oid st + (if oid2 = oid then 1 else 0)
    ∧ (startDutchAuction oid2 st).pendingAuctionStart = st.pendingAuctionStart := by
  unfold startDutchAuction pushMsg
  cases hpo : lookupA oid2 st.publicOrders with
  | none => exact ⟨Nat.le_add_right _ _, rfl⟩
  | some po =>
    cases hso : lookupA oid2 st.signedOrders with
    | none => exact ⟨Nat.le_add_right _ _, rfl⟩
    | some so =>
      refine ⟨?_, rfl⟩
      simp only [auctionCreated]
      rw [createdCount_append_auction]

theorem handleTakeOrder_created (oid oid2 raddr : String) (st : RelayerState) :
    auctionCreated oid (handleTakeOrder oid2 raddr st) = auctionCreated oid st
    ∧ (handleTakeOrder oid2 raddr st).pendingAuctionStart = st.pendingAuctionStart := by
  unfold handleTakeOrder startEscrowMonitoring pushMsg clearAuctionTimer
  cases hpo : lookupA oid2 st.publicOrders with
  | none => exact ⟨rfl, rfl⟩
  | some po =>
    refine ⟨?_, rfl⟩
    simp only [auctionCreated]
    rw [createdCount_append_monitor_auction]

theorem step_auction_budget (oid : String) (ev : Event) (st : RelayerState)
    (h : auctionCreated oid st + st.pendingAuctionStart.count oid ≤ 1) :
    auctionCreated oid (step ev st) + (step ev st).pendingAuctionStart.count oid ≤ 1 := by
  cases ev with
  | auctionStart oid2 =>
    by_cases hp : oid2 ∈ st.pendingAuctionStart
    · simp only [step, hp, if_true]
      have hsda := startDutchAuction_created oid oid2
        { st with pendingAuctionStart := st.pendingAuctionStart.erase oid2 }
      have hcre : auctionCreated oid
          ({ st with pendingAuctionStart := st.pendingAuctionStart.erase oid2 } : RelayerState)
          = auctionCreated oid st := rfl
      have hproj : ({ st with pendingAuctionStart := st.pendingAuctionStart.erase oid2 } : RelayerState).pendingAuctionStart
          = st.pendingAuctionStart.erase oid2 := rfl
      have hc := hsda.1
      rw [hcre] at hc
      rw [hsda.2, hproj]
      by_cases heq : oid2 = oid
      · subst heq
        have hpos : 0 < st.pendingAuctionStart.count oid2 := List.count_pos_iff.mpr hp
        have herase : (st.pendingAuctionStart.erase oid2).count oid2
            = st.pendingAuctionStart.count oid2 - 1 := List.count_erase_self oid2 st.pendingAuctionStart
        rw [herase]
        rw [if_pos rfl] at hc
        omega
      · have hne : oid ≠ oid2 := fun e => heq e.symm
        have herase : (st.pendingAuctionStart.erase oid2).count oid
            = st.pendingAuctionStart.count oid := List.count_erase_of_ne hne st.pendingAuctionStart
        rw [herase]
        rw [if_neg heq] at hc
        omega
    · simpa [step, hp] using h
  | auctionTick now oid2 =>
    simp only [step]
    split
    · simpa [auctionCreated] using h
    · exact h
  | monitorTick e b srs fh ns oid2 =>
    simp only [step]
    split
    · simpa [auctionCreated] using h
    · exact h
  | takeOrder oid2 raddr =>
    have hc := handleTakeOrder_created oid oid2 raddr st
    simp only [step]
    rw [hc.1, hc.2]
    exact h
  | reveal oid2 =>
    simpa [step, auctionCreated] using h
  | deferredComplete oid2 =>
    by_cases hp : oid2 ∈ st.pendingCompletions
    · simp only [step, hp, if_true]
      simpa [auctionCreated] using h
    · simpa [step, hp] using h
  | simulate oid2 chain =>
    simpa [step, auctionCreated] using h
  | register rid addr now =>
    simpa [step, auctionCreated] using h

theorem handleTakeOrder_monitor (oid raddr : String) (st : RelayerState) (po : PublicOrder)
    (hpo : lookupA oid st.publicOrders = some po) :
    monitorCreated oid (handleTakeOrder oid raddr st) = monitorCreated oid st + 1 := by
  unfold handleTakeOrder startEscrowMonitoring pushMsg clearAuctionTimer
  rw [hpo]
  simp only [monitorCreated]
  rw [createdCount_append_monitor, if_pos rfl]

def stAccepted : RelayerState := startFusionProcess 0 goodOrder emptyState

/-- C9 counterexample: after acceptance the escrow monitor for the order is
already running (its handle is registered and one monitor timer was created),
yet a `take_order` message unconditionally calls `startEscrowMonitoring`
again, creating a second escrow-monitor interval for the same order. -/
theorem monitor_started_twice :
    "ord-1" ∈ stAccepted.escrowMonitors
    ∧ monitorCreated "ord-1" stAccepted = 1
    ∧ monitorCreated "ord-1" (handleTakeOrder "ord-1" "0xRESOLVER" stAccepted) = 2 :=
  ⟨by decide, rfl, rfl⟩

/-- C9 (amended): the auction timer is created at most once per order — along
any sequence of per-order operations, the number of auction-timer creations
plus the number of still-pending auction starts never exceeds one — but
`take_order` starts escrow monitoring unconditionally: whenever the order
exists it creates one more escrow-monitor interval, even if a monitor is
already running, so monitor timers are NOT at-most-once per order. -/
theorem timer_at_most_once (oid : String) (st : RelayerState) (evs : List Event)
    (h : auctionCreated oid st + st.pendingAuctionStart.count oid ≤ 1) :
    (auctionCreated oid (run evs st) + (run evs st).pendingAuctionStart.count oid ≤ 1)
    ∧ (∀ (st2 : RelayerState) (raddr : String) (po : PublicOrder),
        lookupA oid st2.publicOrders = some po →
        monitorCreated oid (handleTakeOrder oid raddr st2) = monitorCreated oid st2 + 1) := by
  refine ⟨?_, fun st2 raddr po hpo => handleTakeOrder_monitor oid raddr st2 po hpo⟩
  induction evs generalizing st with
  | nil => exact h
  | cons ev evs ih => exact ih (step ev st) (step_auction_budget oid ev st h)

/-- Witness for C9 (amended): the accepted-order state satisfies the budget,
and a concrete take_order there adds a second monitor creation. -/
theorem timer_at_most_once_witness :
    (auctionCreated "ord-1" (run [] stAccepted)
        + (run [] stAccepted).pendingAuctionStart.count "ord-1" ≤ 1)
    ∧ monitorCreated "ord-1" (handleTakeOrder "ord-1" "0xRESOLVER" stAccepted)
        = monitorCreated "ord-1" stAccepted + 1 := by
  have h := timer_at_most_once "ord-1" stAccepted [] (by decide)
  exact ⟨h.1, h.2 stAccepted "0xRESOLVER"
    { orderId := goodOrder.orderId, maker := goodOrder.maker
      makerStellar := goodOrder.makerStellar, srcChain := goodOrder.srcChain
      dstChain := goodOrder.dstChain, srcToken := goodOrder.srcToken
      dstToken := goodOrder.dstToken, srcAmount := goodOrder.srcAmount
      dstAmount := goodOrder.dstAmount, currentPrice := goodOrder.startPrice
      hashlock := goodOrder.hashlock, signature := goodOrder.signature
      auctionStartTime := 0 + WAITING_PERIOD
      auctionEndTime := 0 + WAITING_PERIOD + AUCTION_DURATION
      waitingPeriod := WAITING_PERIOD, status := .waiting } rfl⟩

/-! ## C5: the status order and which operations respect it -/

def rank : OrderStatus → Nat
  | .waiting => 0
  | .auction => 1
  | .filled => 2
  | .expired => 2
  | .escrows_pending => 3
  | .escrows_ready => 4
  | .secret_revealed => 5
  | .completed => 6

@[simp] theorem statusOf_clearAuctionTimer (oid2 oid : String) (st : RelayerState) :
    statusOf (clearAuctionTimer oid2 st) oid = statusOf st oid := rfl

@[simp] theorem statusOf_clearMonitor (oid2 oid : String) (st : RelayerState) :
    statusOf (clearMonitor oid2 st) oid = statusOf st oid := rfl

@[simp] theorem statusOf_pushMsg (m : Msg) (oid : String) (st : RelayerState) :
    statusOf (pushMsg m st) oid = statusOf st oid := rfl

theorem revealSecret_status (oid : String) (st : RelayerState) :
    statusOf (revealSecret oid st) oid = statusOf st oid
    ∨ statusOf (revealSecret oid st) oid = some .secret_revealed := by
  unfold revealSecret
  cases hs : lookupA oid st.signedOrders with
  | none => cases hp : lookupA oid st.publicOrders <;> exact Or.inl rfl
  | some so =>
    cases hp : lookupA oid st.publicOrders with
    | none => exact Or.inl rfl
    | some po =>
      by_cases hmem : oid ∈ st.secretsRevealed
      · simp [hmem]
      · right
        simp [hmem, statusOf, pushMsg, clearAuctionTimer, clearMonitor]

theorem deferredCompleteBody_status (oid : String) (st : RelayerState) :
    statusOf (deferredCompleteBody oid st) oid = statusOf st oid
    ∨ statusOf (deferredCompleteBody oid st) oid = some .completed := by
  unfold deferredCompleteBody
  cases hp : lookupA oid st.publicOrders with
  | none => exact Or.inl rfl
  | some po => right; simp [statusOf]

theorem handleTakeOrder_status (oid raddr : String) (st : RelayerState) (po : PublicOrder)
    (hpo : lookupA oid st.publicOrders = some po) :
    statusOf (handleTakeOrder oid raddr st) oid = some .filled := by
  unfold handleTakeOrder startEscrowMonitoring pushMsg clearAuctionTimer
  rw [hpo]
  simp [statusOf]

theorem auctionTickBody_status (now : Int) (oid : String) (st : RelayerState) :
    statusOf (auctionTickBody now oid st) oid = statusOf st oid
    ∨ (statusOf st oid = some .auction
        ∧ statusOf (auctionTickBody now oid st) oid = some .expired) := by
  unfold auctionTickBody
  cases hpo : lookupA oid st.publicOrders with
  | none => exact Or.inl rfl
  | some cur =>
    by_cases hs : cur.status = .auction
    · by_cases hesc : (match lookupA oid st.escrowStatuses with
        | some e => e.ethereumExists | none => false) = true
      · simp [hs, hesc]
      · by_cases hend : now > cur.auctionEndTime
        · right
          refine ⟨by simp [statusOf, hpo, hs], ?_⟩
          simp [hs, hesc, hend, statusOf, pushMsg, clearAuctionTimer]
        · cases hso : lookupA oid st.signedOrders with
          | none => left; simp [hs, hesc, hend, hso]
          | some so =>
            left
            by_cases hbr : (match lookupA oid st.escrowStatuses with
                  | some e => !e.ethereumExists | none => true) = true
            · simp [hs, hesc, hend, hso, hbr, statusOf, pushMsg, hpo]
            · simp [hs, hesc, hend, hso, hbr, statusOf, pushMsg, hpo]
    · simp [hs]

theorem monitorEthStage_status (e : Bool) (b : Int) (oid : String) (st : RelayerState) :
    statusOf (monitorEthStage e b oid st) oid = statusOf st oid
    ∨ (statusOf st oid = some .auction
        ∧ statusOf (monitorEthStage e b oid st) oid = some .filled) := by
  unfold monitorEthStage
  cases hes : lookupA oid st.escrowStatuses with
  | none => exact Or.inl rfl
  | some es =>
    cases hpo : lookupA oid st.publicOrders with
    | none => exact Or.inl rfl
    | some po =>
      by_cases hex : es.ethereumExists = true
      · simp [hex]
      · by_cases hr : (checkEthereumEscrowStep e b es).1 = true
        · by_cases hsa : po.status = .auction
          · right
            refine ⟨by simp [statusOf, hpo, hsa], ?_⟩
            simp [hex, hr, hsa, statusOf, pushMsg, clearAuctionTimer]
          · left
            simp [hex, hr, hsa, statusOf, pushMsg, clearAuctionTimer]
        · left
          simp [hex, hr, statusOf]


theorem rank_after_reveal (oid : String) (st3 : RelayerState) (s1 s3 : OrderStatus)
    (h3 : statusOf st3 oid = some s3) (h13 : rank s1 ≤ rank s3) (h15 : rank s1 ≤ 5) :
    ∃ s2, statusOf (revealSecret oid st3) oid = some s2 ∧ rank s1 ≤ rank s2 := by
  rcases revealSecret_status oid st3 with h | h
  · exact ⟨s3, by rw [h]; exact h3, h13⟩
  · exact ⟨.secret_revealed, h, by simpa [rank] using h15⟩

theorem monitorFinalStage_rank (fh : Option Int) (ns : Int) (oid : String) (st : RelayerState)
    (s1 : OrderStatus) (po : PublicOrder)
    (hpo : lookupA oid st.publicOrders = some po) (hpos : po.status = s1)
    (hr : rank s1 < 5) :
    ∃ s2, statusOf (monitorFinalStage fh ns oid st) oid = some s2 ∧ rank s1 ≤ rank s2 := by
  have hst : statusOf st oid = some s1 := by simp [statusOf, hpo, hpos]
  cases hes : lookupA oid st.escrowStatuses with
  | none =>
    refine ⟨s1, ?_, le_rfl⟩
    unfold monitorFinalStage
    rw [hes]
    exact hst
  | some es =>
    unfold monitorFinalStage
    rw [hes, hpo]
    dsimp only
    by_cases hboth : es.ethereumExists = true ∧ es.stellarExists = true
    · rw [if_pos hboth]
      by_cases hpend : po.status ≠ .escrows_pending ∧ po.status ≠ .escrows_ready
      · have hle2 : rank s1 ≤ 2 := by
          rw [hpos] at hpend
          cases s1 <;> simp_all [rank]
        rw [if_pos hpend]
        by_cases hreach : (checkFinalityStep fh ns es).1 = true
        · rw [if_pos hreach]
          rw [show lookupA oid (setA oid { po with status := OrderStatus.escrows_pending } st.publicOrders)
              = some { po with status := OrderStatus.escrows_pending } from lookupA_setA_self _ _ _]
          dsimp only
          rw [if_pos rfl]
          exact rank_after_reveal oid _ s1 .escrows_ready (by simp [statusOf])
            (by rw [show rank OrderStatus.escrows_ready = 4 from rfl]; omega) (by omega)
        · rw [if_neg hreach]
          exact ⟨.escrows_pending, by simp [statusOf],
            by rw [show rank OrderStatus.escrows_pending = 3 from rfl]; omega⟩
      · rw [if_neg hpend]
        rw [hpos] at hpend
        have hor : s1 = .escrows_pending ∨ s1 = .escrows_ready := by
          cases s1 <;> simp_all
        by_cases hreach : (checkFinalityStep fh ns es).1 = true
        · rw [if_pos hreach, hpo]
          dsimp only
          by_cases hp2 : po.status = .escrows_pending
          · rw [if_pos hp2]
            exact rank_after_reveal oid _ s1 .escrows_ready (by simp [statusOf])
              (by rcases hor with rfl | rfl <;> simp [rank]) (by omega)
          · rw [if_neg hp2]
            have hs1r : s1 = .escrows_ready := by
              rcases hor with rfl | rfl
              · exact absurd hpos hp2
              · rfl
            exact rank_after_reveal oid _ s1 s1 (by simp [statusOf, hpo, hpos]) le_rfl (by omega)
        · rw [if_neg hreach]
          exact ⟨s1, by simp [statusOf, hpo, hpos], le_rfl⟩
    · rw [if_neg hboth]
      exact ⟨s1, hst, le_rfl⟩

theorem statusOf_some (st : RelayerState) (oid : String) (s : OrderStatus)
    (h : statusOf st oid = some s) :
    ∃ po, lookupA oid st.publicOrders = some po ∧ po.status = s := by
  unfold statusOf at h
  cases hq : lookupA oid st.publicOrders with
  | none => rw [hq] at h; cases h
  | some po => rw [hq] at h; exact ⟨po, rfl, by simpa using h⟩

theorem monitorTick_rank (e : Bool) (b : Int) (srs : Bool) (fh : Option Int) (ns : Int)
    (oid : String) (st : RelayerState) (s s' : OrderStatus)
    (hs : statusOf st oid = some s) (hr : rank s < 5)
    (hs' : statusOf (step (.monitorTick e b srs fh ns oid) st) oid = some s') :
    rank s ≤ rank s' := by
  by_cases hmon : oid ∈ st.escrowMonitors
  case neg =>
    rw [show step (.monitorTick e b srs fh ns oid) st = st from by simp [step, hmon], hs] at hs'
    rw [Option.some.inj hs']
  obtain ⟨po, hpo, hpos⟩ := statusOf_some st oid s hs
  cases hes : lookupA oid st.escrowStatuses with
  | none =>
    rw [show step (.monitorTick e b srs fh ns oid) st = clearMonitor oid st from by
      simp [step, hmon, monitorTickBody, hes], statusOf_clearMonitor, hs] at hs'
    rw [Option.some.inj hs']
  | some es =>
    have hdec := monitorTick_decomp e b srs fh ns oid st hmon (by rw [hes]; rfl) (by rw [hpo]; rfl)
    rw [hdec] at hs'
    have hstage := monitorEthStage_status e b oid st
    have hstB : ∀ s1 : OrderStatus,
        statusOf (monitorEthStage e b oid st) oid = some s1 →
        statusOf (monitorStellarStage srs oid (monitorEthStage e b oid st)) oid = some s1 := by
      intro s1 h1
      rw [statusOf, monitorStellarStage_public]
      exact h1
    rcases hstage with h1 | ⟨ha, h1⟩
    · rw [hs] at h1
      obtain ⟨poB, hpoB, hposB⟩ := statusOf_some _ oid s (hstB s h1)
      obtain ⟨s2, hs2, hle⟩ := monitorFinalStage_rank fh ns oid _ s poB hpoB hposB hr
      rw [hs2] at hs'
      rw [← Option.some.inj hs']
      exact hle
    · have haux : s = .auction := by
        rw [hs] at ha
        exact Option.some.inj ha
      obtain ⟨poB, hpoB, hposB⟩ := statusOf_some _ oid .filled (hstB .filled h1)
      obtain ⟨s2, hs2, hle⟩ := monitorFinalStage_rank fh ns oid _ .filled poB hpoB hposB
        (by rw [show rank OrderStatus.filled = 2 from rfl]; omega)
      rw [hs2] at hs'
      rw [← Option.some.inj hs', haux]
      exact le_trans (by rw [show rank OrderStatus.auction = 1 from rfl,
        show rank OrderStatus.filled = 2 from rfl]; omega) hle

def stCompleted : RelayerState :=
  { emptyState with
      publicOrders := [("ord-1", { pendingPO with status := .completed })]
      secretsRevealed := ["ord-1"] }

/-- C5 counterexample: `take_order` sets the status to `filled` without
checking the current status, so a take_order message for an order that
already reached the terminal status `completed` moves it backward to
`filled`, violating the claimed total order of transitions. -/
theorem take_order_moves_backward :
    statusOf stCompleted "ord-1" = some .completed
    ∧ statusOf (step (.takeOrder "ord-1" "0xRESOLVER") stCompleted) "ord-1" = some .filled
    ∧ rank .filled < rank .completed :=
  ⟨rfl, rfl, by decide⟩

/-- C5 (amended): ranking the claimed status chain by
waiting(0) → auction(1) → filled|expired(2) → escrows_pending(3) →
escrows_ready(4) → secret_revealed(5) → completed(6): the auction tick and
the deferred completion never move an order's status backward; the
escrow-monitor tick never moves it backward from any status before
`secret_revealed`; reveal never moves it backward from any status other than
`completed`; but `take_order` sets the status to `filled` unconditionally, so
it is forward-only only from statuses at or below the filled stage. -/
theorem status_forward_except_take (st : RelayerState) (oid : String) :
    (∀ (now : Int) (s s' : OrderStatus), statusOf st oid = some s →
        statusOf (step (.auctionTick now oid) st) oid = some s' → rank s ≤ rank s')
    ∧ (∀ (e : Bool) (b : Int) (srs : Bool) (fh : Option Int) (ns : Int) (s s' : OrderStatus),
        statusOf st oid = some s → rank s < 5 →
        statusOf (step (.monitorTick e b srs fh ns oid) st) oid = some s' → rank s ≤ rank s')
    ∧ (∀ s s' : OrderStatus, statusOf st oid = some s → s ≠ .completed →
        statusOf (step (.reveal oid) st) oid = some s' → rank s ≤ rank s')
    ∧ (∀ s s' : OrderStatus, statusOf st oid = some s →
        statusOf (step (.deferredComplete oid) st) oid = some s' → rank s ≤ rank s')
    ∧ (∀ (raddr : String) (s s' : OrderStatus), statusOf st oid = some s → rank s ≤ 2 →
        statusOf (step (.takeOrder oid raddr) st) oid = some s' → rank s ≤ rank s') := by
  refine ⟨?_, ?_, ?_, ?_, ?_⟩
  · intro now s s' hs hs'
    by_cases htm : oid ∈ st.auctionTimers
    case neg =>
      rw [show step (.auctionTick now oid) st = st from by simp [step, htm], hs] at hs'
      rw [Option.some.inj hs']
    rw [show step (.auctionTick now oid) st = auctionTickBody now oid st from by
      simp [step, htm]] at hs'
    rcases auctionTickBody_status now oid st with h | ⟨ha, h⟩
    · rw [h, hs] at hs'
      rw [Option.some.inj hs']
    · rw [h] at hs'
      rw [hs] at ha
      rw [← Option.some.inj hs', Option.some.inj ha]
      decide
  · exact fun e b srs fh ns s s' hs hr hs' => monitorTick_rank e b srs fh ns oid st s s' hs hr hs'
  · intro s s' hs hnc hs'
    rcases revealSecret_status oid st with h | h
    · rw [show step (.reveal oid) st = revealSecret oid st from rfl, h, hs] at hs'
      rw [Option.some.inj hs']
    · rw [show step (.reveal oid) st = revealSecret oid st from rfl, h] at hs'
      rw [← Option.some.inj hs']
      cases s <;> simp_all [rank]
  · intro s s' hs hs'
    by_cases hp : oid ∈ st.pendingCompletions
    case neg =>
      rw [show step (.deferredComplete oid) st = st from by simp [step, hp], hs] at hs'
      rw [Option.some.inj hs']
    rw [show step (.deferredComplete oid) st
        = deferredCompleteBody oid { st with pendingCompletions := st.pendingCompletions.erase oid }
      from by simp [step, hp]] at hs'
    rcases deferredCompleteBody_status oid
        { st with pendingCompletions := st.pendingCompletions.erase oid } with h | h
    · rw [h] at hs'
      have : statusOf { st with pendingCompletions := st.pendingCompletions.erase oid } oid
          = statusOf st oid := rfl
      rw [this, hs] at hs'
      rw [Option.some.inj hs']
    · rw [h] at hs'
      rw [← Option.some.inj hs']
      cases s <;> simp [rank]
  · intro raddr s s' hs h2 hs'
    obtain ⟨po, hpo, _⟩ := statusOf_some st oid s hs
    rw [show step (.takeOrder oid raddr) st = handleTakeOrder oid raddr st from rfl,
      handleTakeOrder_status oid raddr st po hpo] at hs'
    rw [← Option.some.inj hs']
    rw [show rank OrderStatus.filled = 2 from rfl]
    exact h2

/-- Witness for C5 (amended): at a concrete auction-phase order, take_order
moves the status forward from auction to filled. -/
theorem status_forward_except_take_witness :
    rank OrderStatus.auction ≤ rank OrderStatus.filled := by
  have h := status_forward_except_take stAuction "ord-1"
  exact h.2.2.2.2 "0xRESOLVER" .auction .filled rfl (by decide) rfl

/-! ## Frame lemmas for the price-fixing invariant (C3) -/

theorem puc_append_non (oid : String) (l : List Msg) (m : Msg)
    (hm : isPriceUpdate oid m = false) :
    priceUpdateCount oid (l ++ [m]) = priceUpdateCount oid l := by
  simp [priceUpdateCount, List.countP_append, List.countP_cons, hm]

theorem not_mem_eraseT_of (oid oid2 : String) (l : List String) (h : oid ∉ l) :
    oid ∉ eraseT oid2 l := by
  intro hmem
  exact h (List.mem_of_mem_filter hmem)

@[simp] theorem startDutchAuction_escrow (oid2 : String) (st : RelayerState) :
    (startDutchAuction oid2 st).escrowStatuses = st.escrowStatuses := by
  unfold startDutchAuction pushMsg
  repeat' (first | split | dsimp only)
  all_goals rfl

theorem startDutchAuction_priceOf (oid2 oid : String) (st : RelayerState) :
    priceOf (startDutchAuction oid2 st) oid = priceOf st oid := by
  unfold startDutchAuction pushMsg
  cases hq : lookupA oid2 st.publicOrders with
  | none => rfl
  | some po =>
    cases hq2 : lookupA oid2 st.signedOrders with
    | none => rfl
    | some so =>
      by_cases hk : oid2 = oid
      · subst hk; simp [priceOf, hq]
      · have hk' : oid ≠ oid2 := fun e => hk e.symm
        simp [priceOf, hk']

theorem startDutchAuction_puc (oid2 oid : String) (st : RelayerState) :
    priceUpdateCount oid (startDutchAuction oid2 st).broadcasts
      = priceUpdateCount oid st.broadcasts := by
  unfold startDutchAuction pushMsg
  cases hq : lookupA oid2 st.publicOrders with
  | none => rfl
  | some po =>
    cases hq2 : lookupA oid2 st.signedOrders with
    | none => rfl
    | some so => exact puc_append_non oid st.broadcasts _ rfl

@[simp] theorem auctionTickBody_escrow (now : Int) (oid2 : String) (st : RelayerState) :
    (auctionTickBody now oid2 st).escrowStatuses = st.escrowStatuses := by
  unfold auctionTickBody pushMsg clearAuctionTimer
  repeat' (first | split | dsimp only)
  all_goals rfl

theorem auctionTickBody_guard (now : Int) (oid2 : String) (st : RelayerState)
    (h : escEthExists st oid2 = true) :
    auctionTickBody now oid2 st = clearAuctionTimer oid2 st := by
  unfold auctionTickBody
  cases hq : lookupA oid2 st.publicOrders with
  | none => rfl
  | some cur =>
    by_cases hs : cur.status = .auction
    · have hm : (match lookupA oid2 st.escrowStatuses with
        | some e => e.ethereumExists | none => false) = true := by
        unfold escEthExists at h
        exact h
      simp [hs, hm]
    · simp [hs]

theorem auctionTickBody_priceOf_ne (now : Int) (oid2 oid : String) (st : RelayerState)
    (hne : oid2 ≠ oid) :
    priceOf (auctionTickBody now oid2 st) oid = priceOf st oid := by
  have hne' : oid ≠ oid2 := fun e => hne e.symm
  unfold auctionTickBody pushMsg clearAuctionTimer
  cases hq : lookupA oid2 st.publicOrders with
  | none => rfl
  | some cur =>
    by_cases hs : cur.status = .auction
    · by_cases hesc : (match lookupA oid2 st.escrowStatuses with
        | some e => e.ethereumExists | none => false) = true
      · simp [hs, hesc, priceOf]
      · by_cases hend : now > cur.auctionEndTime
        · simp [hs, hesc, hend, priceOf, hne']
        · cases hso : lookupA oid2 st.signedOrders with
          | none => simp [hs, hesc, hend, hso, priceOf]
          | some so =>
            by_cases hbr : (match lookupA oid2 st.escrowStatuses with
                | some e => !e.ethereumExists | none => true) = true
            · simp [hs, hesc, hend, hso, hbr, priceOf, hne']
            · simp [hs, hesc, hend, hso, hbr, priceOf, hne']
    · simp [hs, priceOf]

theorem auctionTickBody_puc_ne (now : Int) (oid2 oid : String) (st : RelayerState)
    (hne : oid2 ≠ oid) :
    priceUpdateCount oid (auctionTickBody now oid2 st).broadcasts
      = priceUpdateCount oid st.broadcasts := by
  unfold auctionTickBody pushMsg clearAuctionTimer
  cases hq : lookupA oid2 st.publicOrders with
  | none => rfl
  | some cur =>
    by_cases hs : cur.status = .auction
    · by_cases hesc : (match lookupA oid2 st.escrowStatuses with
        | some e => e.ethereumExists | none => false) = true
      · simp [hs, hesc]
      · by_cases hend : now > cur.auctionEndTime
        · simp [hs, hesc, hend, priceUpdateCount, List.countP_append,
            List.countP_cons, isPriceUpdate]
        · cases hso : lookupA oid2 st.signedOrders with
          | none => simp [hs, hesc, hend, hso]
          | some so =>
            by_cases hbr : (match lookupA oid2 st.escrowStatuses with
                | some e => !e.ethereumExists | none => true) = true
            · simp [hs, hesc, hend, hso, hbr, priceUpdateCount, List.countP_append,
                List.countP_cons, isPriceUpdate, hne]
            · simp [hs, hesc, hend, hso, hbr]
    · simp [hs]

theorem revealSecret_priceOf (oid2 oid : String) (st : RelayerState) :
    priceOf (revealSecret oid2 st) oid = priceOf st oid := by
  unfold revealSecret pushMsg clearAuctionTimer clearMonitor
  cases hs : lookupA oid2 st.signedOrders with
  | none => cases hp : lookupA oid2 st.publicOrders <;> rfl
  | some so =>
    cases hp : lookupA oid2 st.publicOrders with
    | none => rfl
    | some po =>
      by_cases hmem : oid2 ∈ st.secretsRevealed
      · simp [hmem]
      · by_cases hk : oid2 = oid
        · subst hk; simp [hmem, priceOf, hp]
        · have hk' : oid ≠ oid2 := fun e => hk e.symm
          simp [hmem, priceOf, hk']

theorem revealSecret_puc (oid2 oid : String) (st : RelayerState) :
    priceUpdateCount oid (revealSecret oid2 st).broadcasts
      = priceUpdateCount oid st.broadcasts := by
  unfold revealSecret pushMsg clearAuctionTimer clearMonitor
  cases hs : lookupA oid2 st.signedOrders with
  | none => cases hp : lookupA oid2 st.publicOrders <;> rfl
  | some so =>
    cases hp : lookupA oid2 st.publicOrders with
    | none => rfl
    | some po =>
      by_cases hmem : oid2 ∈ st.secretsRevealed
      · simp [hmem]
      · simp only [hmem, if_neg]
        exact puc_append_non oid st.broadcasts _ rfl

theorem revealSecret_auctionTimers_sub (oid2 oid : String) (st : RelayerState)
    (h : oid ∉ st.auctionTimers) : oid ∉ (revealSecret oid2 st).auctionTimers := by
  unfold revealSecret pushMsg clearAuctionTimer clearMonitor
  cases hs : lookupA oid2 st.signedOrders with
  | none => cases hp : lookupA oid2 st.publicOrders <;> exact h
  | some so =>
    cases hp : lookupA oid2 st.publicOrders with
    | none => exact h
    | some po =>
      by_cases hmem : oid2 ∈ st.secretsRevealed
      · simp only [hmem, if_pos]; exact h
      · simp only [hmem, if_neg]
        exact not_mem_eraseT_of oid oid2 st.auctionTimers h

theorem monitorEthStage_noop (e : Bool) (b : Int) (oid2 : String) (st : RelayerState)
    (h : escEthExists st oid2 = true) : monitorEthStage e b oid2 st = st := by
  unfold escEthExists at h
  unfold monitorEthStage
  cases hes : lookupA oid2 st.escrowStatuses with
  | none => simp [hes] at h
  | some es =>
    rw [hes] at h
    have h' : es.ethereumExists = true := h
    cases hpo : lookupA oid2 st.publicOrders with
    | none => rfl
    | some po => simp [h']

theorem monitorEthStage_priceOf (e : Bool) (b : Int) (oid2 oid : String) (st : RelayerState) :
    priceOf (monitorEthStage e b oid2 st) oid = priceOf st oid := by
  unfold monitorEthStage pushMsg clearAuctionTimer
  cases hes : lookupA oid2 st.escrowStatuses with
  | none => rfl
  | some es =>
    cases hpo : lookupA oid2 st.publicOrders with
    | none => rfl
    | some po =>
      by_cases hex : es.ethereumExists = true
      · simp [hex]
      · by_cases hr : (checkEthereumEscrowStep e b es).1 = true
        · by_cases hsa : po.status = .auction
          · by_cases hk : oid2 = oid
            · subst hk; simp [hex, hr, hsa, priceOf, hpo]
            · have hk' : oid ≠ oid2 := fun x => hk x.symm
              simp [hex, hr, hsa, priceOf, hk']
          · simp [hex, hr, hsa, priceOf]
        · simp [hex, hr, priceOf]

theorem monitorEthStage_puc (e : Bool) (b : Int) (oid2 oid : String) (st : RelayerState) :
    priceUpdateCount oid (monitorEthStage e b oid2 st).broadcasts
      = priceUpdateCount oid st.broadcasts := by
  unfold monitorEthStage pushMsg clearAuctionTimer
  cases hes : lookupA oid2 st.escrowStatuses with
  | none => rfl
  | some es =>
    cases hpo : lookupA oid2 st.publicOrders with
    | none => rfl
    | some po =>
      by_cases hex : es.ethereumExists = true
      · simp [hex]
      · by_cases hr : (checkEthereumEscrowStep e b es).1 = true
        · by_cases hsa : po.status = .auction
          · simp [hex, hr, hsa, priceUpdateCount, List.countP_append, List.countP_cons,
              isPriceUpdate]
          · simp [hex, hr, hsa]
        · simp [hex, hr]

theorem monitorEthStage_ethTrue (e : Bool) (b : Int) (oid2 oid : String) (st : RelayerState)
    (h : escEthExists st oid = true) :
    escEthExists (monitorEthStage e b oid2 st) oid = true := by
  by_cases hk : oid2 = oid
  · subst hk
    rw [monitorEthStage_noop e b oid2 st h]
    exact h
  · have hk' : oid ≠ oid2 := fun x => hk x.symm
    unfold monitorEthStage pushMsg clearAuctionTimer
    cases hes : lookupA oid2 st.escrowStatuses with
    | none => exact h
    | some es =>
      cases hpo : lookupA oid2 st.publicOrders with
      | none => exact h
      | some po =>
        by_cases hex : es.ethereumExists = true
        · simp only [hex, if_pos]
          exact h
        · unfold escEthExists at h ⊢
          by_cases hr : (checkEthereumEscrowStep e b es).1 = true
          · by_cases hsa : po.status = .auction
            · simp only [hex, hr, hsa]
              simpa [hk'] using h
            · simp only [hex, hr, hsa]
              simpa [hk'] using h
          · simp only [hex, hr]
            simpa [hk'] using h

theorem monitorStellarStage_broadcasts (srs : Bool) (oid2 : String) (st : RelayerState) :
    (monitorStellarStage srs oid2 st).broadcasts = st.broadcasts := by
  unfold monitorStellarStage
  repeat' (first | split | dsimp only)
  all_goals rfl

theorem monitorStellarStage_ethTrue (srs : Bool) (oid2 oid : String) (st : RelayerState)
    (h : escEthExists st oid = true) :
    escEthExists (monitorStellarStage srs oid2 st) oid = true := by
  unfold monitorStellarStage
  cases hes : lookupA oid2 st.escrowStatuses with
  | none => exact h
  | some es =>
    by_cases hsx : es.stellarExists = true
    · simp only [hsx, if_pos]
      exact h
    · have hsx' : es.stellarExists = false := by simpa using hsx
      by_cases hk : oid2 = oid
      · subst hk
        unfold escEthExists at h ⊢
        rw [hes] at h
        have h' : es.ethereumExists = true := h
        simp [hsx', h']
      · have hk' : oid ≠ oid2 := fun x => hk x.symm
        unfold escEthExists at h ⊢
        simp only [hsx']
        simpa [hk'] using h

theorem monitorFinalStage_escrow_ne (fh : Option Int) (ns : Int) (oid2 oid : String)
    (st : RelayerState) (hne : oid ≠ oid2) :
    lookupA oid (monitorFinalStage fh ns oid2 st).escrowStatuses
      = lookupA oid st.escrowStatuses := by
  unfold monitorFinalStage
  cases hes : lookupA oid2 st.escrowStatuses with
  | none => rfl
  | some es =>
    cases hpo : lookupA oid2 st.publicOrders with
    | none => rfl
    | some po =>
      dsimp only
      by_cases hboth : es.ethereumExists = true ∧ es.stellarExists = true
      · rw [if_pos hboth]
        by_cases hpend : po.status ≠ .escrows_pending ∧ po.status ≠ .escrows_ready
        · rw [if_pos hpend]
          by_cases hreach : (checkFinalityStep fh ns es).1 = true
          · rw [if_pos hreach]
            rw [show lookupA oid2 (setA oid2 { po with status := OrderStatus.escrows_pending } st.publicOrders)
                = some { po with status := OrderStatus.escrows_pending } from lookupA_setA_self _ _ _]
            dsimp only
            rw [if_pos rfl, revealSecret_escrow]
            simp [hne]
          · rw [if_neg hreach]
            simp [hne]
        · rw [if_neg hpend]
          by_cases hreach : (checkFinalityStep fh ns es).1 = true
          · rw [if_pos hreach, hpo]
            dsimp only
            by_cases hp2 : po.status = .escrows_pending
            · rw [if_pos hp2, revealSecret_escrow]
              simp [hne]
            · rw [if_neg hp2, revealSecret_escrow]
              simp [hne]
          · rw [if_neg hreach]
            simp [hne]
      · rw [if_neg hboth]

theorem monitorFinalStage_ethTrue (fh : Option Int) (ns : Int) (oid2 oid : String)
    (st : RelayerState) (h : escEthExists st oid = true) :
    escEthExists (monitorFinalStage fh ns oid2 st) oid = true := by
  by_cases hk : oid2 = oid
  · subst hk
    unfold escEthExists at h
    cases hes : lookupA oid2 st.escrowStatuses with
    | none => simp [hes] at h
    | some es =>
      rw [hes] at h
      have h' : es.ethereumExists = true := h
      obtain ⟨esF, hF, hFe, _, _, _⟩ := monitorFinalStage_escrow fh ns oid2 st es hes
      unfold escEthExists
      rw [hF]
      show esF.ethereumExists = true
      rw [hFe]
      exact h'
  · have hk' : oid ≠ oid2 := fun x => hk x.symm
    unfold escEthExists at h ⊢
    rw [monitorFinalStage_escrow_ne fh ns oid2 oid st hk']
    exact h

theorem escEthExists_congr (st1 st2 : RelayerState) (oid : String)
    (h : st1.escrowStatuses = st2.escrowStatuses) :
    escEthExists st1 oid = escEthExists st2 oid := by
  unfold escEthExists
  rw [h]

theorem priceOf_congr (st1 st2 : RelayerState) (oid : String)
    (h : st1.publicOrders = st2.publicOrders) : priceOf st1 oid = priceOf st2 oid := by
  unfold priceOf
  rw [h]

theorem monitorFinalStage_priceOf (fh : Option Int) (ns : Int) (oid2 oid : String)
    (st : RelayerState) :
    priceOf (monitorFinalStage fh ns oid2 st) oid = priceOf st oid := by
  unfold monitorFinalStage
  cases hes : lookupA oid2 st.escrowStatuses with
  | none => rfl
  | some es =>
    cases hpo : lookupA oid2 st.publicOrders with
    | none => rfl
    | some po =>
      dsimp only
      by_cases hboth : es.ethereumExists = true ∧ es.stellarExists = true
      · rw [if_pos hboth]
        by_cases hpend : po.status ≠ .escrows_pending ∧ po.status ≠ .escrows_ready
        · rw [if_pos hpend]
          by_cases hreach : (checkFinalityStep fh ns es).1 = true
          · rw [if_pos hreach]
            rw [show lookupA oid2 (setA oid2 { po with status := OrderStatus.escrows_pending } st.publicOrders)
                = some { po with status := OrderStatus.escrows_pending } from lookupA_setA_self _ _ _]
            dsimp only
            rw [if_pos rfl, revealSecret_priceOf]
            by_cases hk : oid2 = oid
            · subst hk; simp [priceOf, hpo]
            · have hk' : oid ≠ oid2 := fun x => hk x.symm
              simp [priceOf, hk']
          · rw [if_neg hreach]
            by_cases hk : oid2 = oid
            · subst hk; simp [priceOf, hpo]
            · have hk' : oid ≠ oid2 := fun x => hk x.symm
              simp [priceOf, hk']
        · rw [if_neg hpend]
          by_cases hreach : (checkFinalityStep fh ns es).1 = true
          · rw [if_pos hreach, hpo]
            dsimp only
            by_cases hp2 : po.status = .escrows_pending
            · rw [if_pos hp2, revealSecret_priceOf]
              by_cases hk : oid2 = oid
              · subst hk; simp [priceOf, hpo]
              · have hk' : oid ≠ oid2 := fun x => hk x.symm
                simp [priceOf, hk']
            · rw [if_neg hp2, revealSecret_priceOf]
              rfl
          · rw [if_neg hreach]
            rfl
      · rw [if_neg hboth]

theorem monitorFinalStage_puc (fh : Option Int) (ns : Int) (oid2 oid : String)
    (st : RelayerState) :
    priceUpdateCount oid (monitorFinalStage fh ns oid2 st).broadcasts
      = priceUpdateCount oid st.broadcasts := by
  unfold monitorFinalStage
  cases hes : lookupA oid2 st.escrowStatuses with
  | none => rfl
  | some es =>
    cases hpo : lookupA oid2 st.publicOrders with
    | none => rfl
    | some po =>
      dsimp only
      by_cases hboth : es.ethereumExists = true ∧ es.stellarExists = true
      · rw [if_pos hboth]
        by_cases hpend : po.status ≠ .escrows_pending ∧ po.status ≠ .escrows_ready
        · rw [if_pos hpend]
          by_cases hreach : (checkFinalityStep fh ns es).1 = true
          · rw [if_pos hreach]
            rw [show lookupA oid2 (setA oid2 { po with status := OrderStatus.escrows_pending } st.publicOrders)
                = some { po with status := OrderStatus.escrows_pending } from lookupA_setA_self _ _ _]
            dsimp only
            rw [if_pos rfl, revealSecret_puc]
          · rw [if_neg hreach]
        · rw [if_neg hpend]
          by_cases hreach : (checkFinalityStep fh ns es).1 = true
          · rw [if_pos hreach, hpo]
            dsimp only
            by_cases hp2 : po.status = .escrows_pending
            · rw [if_pos hp2, revealSecret_puc]
            · rw [if_neg hp2, revealSecret_puc]
          · rw [if_neg hreach]
      · rw [if_neg hboth]

@[simp] theorem handleTakeOrder_escrow (oid2 raddr : String) (st : RelayerState) :
    (handleTakeOrder oid2 raddr st).escrowStatuses = st.escrowStatuses := by
  unfold handleTakeOrder startEscrowMonitoring pushMsg clearAuctionTimer
  repeat' (first | split | dsimp only)
  all_goals rfl

theorem handleTakeOrder_priceOf (oid2 raddr oid : String) (st : RelayerState) :
    priceOf (handleTakeOrder oid2 raddr st) oid = priceOf st oid := by
  unfold handleTakeOrder startEscrowMonitoring pushMsg clearAuctionTimer
  cases hq : lookupA oid2 st.publicOrders with
  | none => rfl
  | some po =>
    by_cases hk : oid2 = oid
    · subst hk; simp [priceOf, hq]
    · have hk' : oid ≠ oid2 := fun x => hk x.symm
      simp [priceOf, hk']

theorem handleTakeOrder_puc (oid2 raddr oid : String) (st : RelayerState) :
    priceUpdateCount oid (handleTakeOrder oid2 raddr st).broadcasts
      = priceUpdateCount oid st.broadcasts := by
  unfold handleTakeOrder startEscrowMonitoring pushMsg clearAuctionTimer
  cases hq : lookupA oid2 st.publicOrders with
  | none => rfl
  | some po => exact puc_append_non oid st.broadcasts _ rfl

@[simp] theorem deferredCompleteBody_escrow (oid2 : String) (st : RelayerState) :
    (deferredCompleteBody oid2 st).escrowStatuses = st.escrowStatuses := by
  unfold deferredCompleteBody
  repeat' (first | split | dsimp only)
  all_goals rfl

@[simp] theorem deferredCompleteBody_broadcasts (oid2 : String) (st : RelayerState) :
    (deferredCompleteBody oid2 st).broadcasts = st.broadcasts := by
  unfold deferredCompleteBody
  repeat' (first | split | dsimp only)
  all_goals rfl

theorem deferredCompleteBody_priceOf (oid2 oid : String) (st : RelayerState) :
    priceOf (deferredCompleteBody oid2 st) oid = priceOf st oid := by
  unfold deferredCompleteBody
  cases hq : lookupA oid2 st.publicOrders with
  | none => rfl
  | some po =>
    by_cases hk : oid2 = oid
    · subst hk; simp [priceOf, hq]
    · have hk' : oid ≠ oid2 := fun x => hk x.symm
      simp [priceOf, hk']

theorem simulateEscrow_priceOf (oid2 chain oid : String) (st : RelayerState) :
    priceOf (simulateEscrow oid2 chain st).1 oid = priceOf st oid := by
  unfold simulateEscrow pushMsg clearAuctionTimer
  by_cases h0 : oid2 = "" ∨ chain = ""
  · simp [h0]
  · have h0a : ¬oid2 = "" := fun hh => h0 (Or.inl hh)
    have h0b : ¬chain = "" := fun hh => h0 (Or.inr hh)
    cases hes : lookupA oid2 st.escrowStatuses with
    | none => simp [h0, h0a, h0b, hes]
    | some es =>
      by_cases hc : chain = "ethereum"
      · cases hq : lookupA oid2 st.publicOrders with
        | none => simp [h0, h0a, h0b, hes, hc, hq, priceOf]
        | some po =>
          by_cases hsa : po.status = .auction
          · by_cases hk : oid2 = oid
            · subst hk; simp [h0, h0a, h0b, hes, hc, hq, hsa, priceOf]
            · have hk' : oid ≠ oid2 := fun x => hk x.symm
              simp [h0, h0a, h0b, hes, hc, hq, hsa, priceOf, hk']
          · simp [h0, h0a, h0b, hes, hc, hq, hsa, priceOf]
      · by_cases hc2 : chain = "stellar"
        · simp [h0, h0a, h0b, hes, hc, hc2, priceOf]
        · simp [h0, h0a, h0b, hes, hc, hc2]

theorem simulateEscrow_puc (oid2 chain oid : String) (st : RelayerState) :
    priceUpdateCount oid (simulateEscrow oid2 chain st).1.broadcasts
      = priceUpdateCount oid st.broadcasts := by
  unfold simulateEscrow pushMsg clearAuctionTimer
  by_cases h0 : oid2 = "" ∨ chain = ""
  · simp [h0]
  · have h0a : ¬oid2 = "" := fun hh => h0 (Or.inl hh)
    have h0b : ¬chain = "" := fun hh => h0 (Or.inr hh)
    cases hes : lookupA oid2 st.escrowStatuses with
    | none => simp [h0, h0a, h0b, hes]
    | some es =>
      by_cases hc : chain = "ethereum"
      · cases hq : lookupA oid2 st.publicOrders with
        | none => simp [h0, h0a, h0b, hes, hc, hq]
        | some po =>
          by_cases hsa : po.status = .auction
          · simp [h0, h0a, h0b, hes, hc, hq, hsa, priceUpdateCount, List.countP_append,
              List.countP_cons, isPriceUpdate]
          · simp [h0, h0a, h0b, hes, hc, hq, hsa]
      · by_cases hc2 : chain = "stellar"
        · simp [h0, h0a, h0b, hes, hc, hc2]
        · simp [h0, h0a, h0b, hes, hc, hc2]

theorem simulateEscrow_ethTrue (oid2 chain oid : String) (st : RelayerState)
    (h : escEthExists st oid = true) :
    escEthExists (simulateEscrow oid2 chain st).1 oid = true := by
  unfold simulateEscrow pushMsg clearAuctionTimer
  by_cases h0 : oid2 = "" ∨ chain = ""
  · simpa [h0] using h
  · have h0a : ¬oid2 = "" := fun hh => h0 (Or.inl hh)
    have h0b : ¬chain = "" := fun hh => h0 (Or.inr hh)
    cases hes : lookupA oid2 st.escrowStatuses with
    | none => simpa [h0, h0a, h0b, hes] using h
    | some es =>
      by_cases hk : oid2 = oid
      · subst hk
        unfold escEthExists at h
        rw [hes] at h
        have h' : es.ethereumExists = true := h
        by_cases hc : chain = "ethereum"
        · cases hq : lookupA oid2 st.publicOrders with
          | none => simp [h0, h0a, h0b, hes, hc, hq, escEthExists]
          | some po =>
            by_cases hsa : po.status = .auction
            · simp [h0, h0a, h0b, hes, hc, hq, hsa, escEthExists]
            · simp [h0, h0a, h0b, hes, hc, hq, hsa, escEthExists]
        · by_cases hc2 : chain = "stellar"
          · simp [h0, h0a, h0b, hes, hc, hc2, escEthExists, h']
          · simpa [h0, h0a, h0b, hes, hc, hc2, escEthExists] using h'
      · have hk' : oid ≠ oid2 := fun x => hk x.symm
        unfold escEthExists at h ⊢
        by_cases hc : chain = "ethereum"
        · cases hq : lookupA oid2 st.publicOrders with
          | none => simpa [h0, h0a, h0b, hes, hc, hq, hk'] using h
          | some po =>
            by_cases hsa : po.status = .auction
            · simpa [h0, h0a, h0b, hes, hc, hq, hsa, hk'] using h
            · simpa [h0, h0a, h0b, hes, hc, hq, hsa, hk'] using h
        · by_cases hc2 : chain = "stellar"
          · simpa [h0, h0a, h0b, hes, hc, hc2, hk'] using h
          · simpa [h0, h0a, h0b, hes, hc, hc2] using h

@[simp] theorem handleRegister_public (rid addr : String) (now : Int) (st : RelayerState) :
    (handleRegister rid addr now st).1.publicOrders = st.publicOrders := rfl

@[simp] theorem handleRegister_broadcasts (rid addr : String) (now : Int) (st : RelayerState) :
    (handleRegister rid addr now st).1.broadcasts = st.broadcasts := rfl

@[simp] theorem handleRegister_escrow (rid addr : String) (now : Int) (st : RelayerState) :
    (handleRegister rid addr now st).1.escrowStatuses = st.escrowStatuses := rfl

theorem statusOf_congr (st1 st2 : RelayerState) (oid : String)
    (h : st1.publicOrders = st2.publicOrders) : statusOf st1 oid = statusOf st2 oid := by
  unfold statusOf
  rw [h]

theorem monitorStellarStage_auctionTimers (srs : Bool) (oid2 : String) (st : RelayerState) :
    (monitorStellarStage srs oid2 st).auctionTimers = st.auctionTimers := by
  unfold monitorStellarStage
  repeat' (first | split | dsimp only)
  all_goals rfl

theorem step_price_fixed (oid : String) (ev : Event) (st : RelayerState)
    (h : escEthExists st oid = true) :
    escEthExists (step ev st) oid = true
    ∧ priceOf (step ev st) oid = priceOf st oid
    ∧ priceUpdateCount oid (step ev st).broadcasts = priceUpdateCount oid st.broadcasts := by
  cases ev with
  | auctionStart oid2 =>
    by_cases hp : oid2 ∈ st.pendingAuctionStart
    · simp only [step]
      rw [if_pos hp]
      refine ⟨?_, ?_, ?_⟩
      · have e1 : escEthExists (startDutchAuction oid2
              { st with pendingAuctionStart := st.pendingAuctionStart.erase oid2 }) oid
            = escEthExists st oid :=
          escEthExists_congr _ st oid ((startDutchAuction_escrow oid2 _).trans rfl)
        rw [e1]
        exact h
      · exact (startDutchAuction_priceOf oid2 oid _).trans rfl
      · exact (startDutchAuction_puc oid2 oid _).trans rfl
    · simp only [step]
      rw [if_neg hp]
      exact ⟨h, rfl, rfl⟩
  | auctionTick now oid2 =>
    by_cases htm : oid2 ∈ st.auctionTimers
    · simp only [step]
      rw [if_pos htm]
      by_cases hk : oid2 = oid
      · subst hk
        rw [auctionTickBody_guard now oid2 st h]
        exact ⟨h, rfl, rfl⟩
      · have hne : oid2 ≠ oid := hk
        refine ⟨?_, auctionTickBody_priceOf_ne now oid2 oid st hne,
          auctionTickBody_puc_ne now oid2 oid st hne⟩
        rw [escEthExists_congr _ st oid (auctionTickBody_escrow now oid2 st)]
        exact h
    · simp only [step]
      rw [if_neg htm]
      exact ⟨h, rfl, rfl⟩
  | monitorTick e b srs fh ns oid2 =>
    by_cases hmon : oid2 ∈ st.escrowMonitors
    case neg =>
      simp only [step]
      rw [if_neg hmon]
      exact ⟨h, rfl, rfl⟩
    simp only [step]
    rw [if_pos hmon]
    unfold monitorTickBody
    cases hes : lookupA oid2 st.escrowStatuses with
    | none => cases hpo : lookupA oid2 st.publicOrders <;> exact ⟨h, rfl, rfl⟩
    | some es =>
      cases hpo : lookupA oid2 st.publicOrders with
      | none => exact ⟨h, rfl, rfl⟩
      | some po =>
        refine ⟨?_, ?_, ?_⟩
        · exact monitorFinalStage_ethTrue fh ns oid2 oid _
            (monitorStellarStage_ethTrue srs oid2 oid _
              (monitorEthStage_ethTrue e b oid2 oid st h))
        · exact (monitorFinalStage_priceOf fh ns oid2 oid _).trans
            ((priceOf_congr _ _ oid (monitorStellarStage_public srs oid2 _)).trans
              (monitorEthStage_priceOf e b oid2 oid st))
        · have c2 : priceUpdateCount oid
              (monitorStellarStage srs oid2 (monitorEthStage e b oid2 st)).broadcasts
              = priceUpdateCount oid (monitorEthStage e b oid2 st).broadcasts := by
            rw [monitorStellarStage_broadcasts]
          exact (monitorFinalStage_puc fh ns oid2 oid _).trans
            (c2.trans (monitorEthStage_puc e b oid2 oid st))
  | takeOrder oid2 raddr =>
    refine ⟨?_, handleTakeOrder_priceOf oid2 raddr oid st, handleTakeOrder_puc oid2 raddr oid st⟩
    rw [show step (.takeOrder oid2 raddr) st = handleTakeOrder oid2 raddr st from rfl,
      escEthExists_congr _ st oid (handleTakeOrder_escrow oid2 raddr st)]
    exact h
  | reveal oid2 =>
    refine ⟨?_, revealSecret_priceOf oid2 oid st, revealSecret_puc oid2 oid st⟩
    rw [show step (.reveal oid2) st = revealSecret oid2 st from rfl,
      escEthExists_congr _ st oid (revealSecret_escrow oid2 st)]
    exact h
  | deferredComplete oid2 =>
    by_cases hp : oid2 ∈ st.pendingCompletions
    · simp only [step]
      rw [if_pos hp]
      refine ⟨?_, ?_, ?_⟩
      · rw [escEthExists_congr
          (deferredCompleteBody oid2 { st with pendingCompletions := st.pendingCompletions.erase oid2 })
          st oid ((deferredCompleteBody_escrow oid2 _).trans rfl)]
        exact h
      · exact (deferredCompleteBody_priceOf oid2 oid _).trans rfl
      · have e2 : (deferredCompleteBody oid2
              { st with pendingCompletions := st.pendingCompletions.erase oid2 }).broadcasts
            = st.broadcasts := (deferredCompleteBody_broadcasts oid2 _).trans rfl
        rw [e2]
    · simp only [step]
      rw [if_neg hp]
      exact ⟨h, rfl, rfl⟩
  | simulate oid2 chain =>
    exact ⟨simulateEscrow_ethTrue oid2 chain oid st h,
      simulateEscrow_priceOf oid2 chain oid st, simulateEscrow_puc oid2 chain oid st⟩
  | register rid addr now =>
    exact ⟨h, rfl, rfl⟩

theorem run_price_fixed (oid : String) (evs : List Event) (st : RelayerState)
    (h : escEthExists st oid = true) :
    escEthExists (run evs st) oid = true
    ∧ priceOf (run evs st) oid = priceOf st oid
    ∧ priceUpdateCount oid (run evs st).broadcasts = priceUpdateCount oid st.broadcasts := by
  induction evs generalizing st with
  | nil => exact ⟨h, rfl, rfl⟩
  | cons ev evs ih =>
    have hstep := step_price_fixed oid ev st h
    have hrun := ih (step ev st) hstep.1
    exact ⟨hrun.1, hrun.2.1.trans hstep.2.1, hrun.2.2.trans hstep.2.2⟩

theorem monitorFinalStage_skip (fh : Option Int) (ns : Int) (oid2 : String)
    (st : RelayerState) (esB : EscrowStatus)
    (hesB : lookupA oid2 st.escrowStatuses = some esB)
    (hsx : esB.stellarExists = false) : monitorFinalStage fh ns oid2 st = st := by
  unfold monitorFinalStage
  rw [hesB]
  cases hpo : lookupA oid2 st.publicOrders with
  | none => rfl
  | some po =>
    dsimp only
    rw [if_neg]
    intro hc
    rw [hsx] at hc
    exact absurd hc.2 (by simp)

theorem monitorEthStage_detect (b : Int) (oid : String) (st : RelayerState)
    (es : EscrowStatus) (po : PublicOrder)
    (hes : lookupA oid st.escrowStatuses = some es)
    (hpo : lookupA oid st.publicOrders = some po)
    (hex : es.ethereumExists = false) :
    (monitorEthStage true b oid st).auctionTimers = eraseT oid st.auctionTimers
    ∧ (po.status = .auction →
        statusOf (monitorEthStage true b oid st) oid = some .filled
        ∧ (monitorEthStage true b oid st).broadcasts
            = st.broadcasts ++ [.order_filled oid po.currentPrice]) := by
  have hr : (checkEthereumEscrowStep true b es).1 = true := by
    unfold checkEthereumEscrowStep
    by_cases hblk : jsFalsyOpt es.ethereumBlock = true <;> simp [hblk]
  unfold monitorEthStage pushMsg clearAuctionTimer
  rw [hes, hpo]
  dsimp only
  rw [if_neg (by rw [hex]; simp), if_pos hr]
  by_cases hsa : po.status = .auction
  · rw [if_pos hsa]
    exact ⟨rfl, fun _ => ⟨by simp [statusOf], rfl⟩⟩
  · rw [if_neg hsa]
    exact ⟨rfl, fun hc => absurd hc hsa⟩

theorem monitorTick_detect (b : Int) (fh : Option Int) (ns : Int) (oid : String)
    (st : RelayerState) (es : EscrowStatus) (po : PublicOrder)
    (hes : lookupA oid st.escrowStatuses = some es)
    (hpo : lookupA oid st.publicOrders = some po)
    (hmon : oid ∈ st.escrowMonitors)
    (hex : es.ethereumExists = false) (hsx : es.stellarExists = false) :
    oid ∉ (step (.monitorTick true b false fh ns oid) st).auctionTimers
    ∧ escEthExists (step (.monitorTick true b false fh ns oid) st) oid = true
    ∧ priceOf (step (.monitorTick true b false fh ns oid) st) oid = some po.currentPrice
    ∧ (po.status = .auction →
        statusOf (step (.monitorTick true b false fh ns oid) st) oid = some .filled
        ∧ (step (.monitorTick true b false fh ns oid) st).broadcasts
            = st.broadcasts ++ [.order_filled oid po.currentPrice]) := by
  have hdec := monitorTick_decomp true b false fh ns oid st hmon (by rw [hes]; rfl) (by rw [hpo]; rfl)
  obtain ⟨esA, hA, hAs, hAl, _, hAe, _⟩ := monitorEthStage_escrow true b oid st es po hes hpo
  have hAs' : esA.stellarExists = false := by rw [hAs]; exact hsx
  have hAe' : esA.ethereumExists = true := hAe hex
  have hB := monitorStellarStage_escrow false oid (monitorEthStage true b oid st) esA hA
  rw [if_neg (by simp [hAs'])] at hB
  have hskip := monitorFinalStage_skip fh ns oid
    (monitorStellarStage false oid (monitorEthStage true b oid st)) _ hB rfl
  rw [hdec, hskip]
  obtain ⟨hTimers, hFill⟩ := monitorEthStage_detect b oid st es po hes hpo hex
  have hEthTrue : escEthExists (monitorEthStage true b oid st) oid = true := by
    unfold escEthExists
    rw [hA]
    exact hAe'
  refine ⟨?_, ?_, ?_, ?_⟩
  · rw [monitorStellarStage_auctionTimers, hTimers]
    exact not_mem_eraseT_self oid st.auctionTimers
  · exact monitorStellarStage_ethTrue false oid oid _ hEthTrue
  · rw [priceOf_congr _ _ oid (monitorStellarStage_public false oid _),
      monitorEthStage_priceOf true b oid oid st]
    simp [priceOf, hpo]
  · intro hsa
    obtain ⟨hst, hbr⟩ := hFill hsa
    constructor
    · rw [statusOf_congr _ _ oid (monitorStellarStage_public false oid _)]
      exact hst
    · rw [monitorStellarStage_broadcasts]
      exact hbr

/-! ## C3: the price is fixed once the source escrow is observed -/

/-- C3: once the source-chain (Ethereum) escrow existence flag is set for an
order, no later operation ever broadcasts another `price_update` for it or
mutates its `currentPrice`; moreover, the escrow-monitor tick that detects
source existence cancels the auction timer in that same tick and, if the
status was `auction`, transitions it to `filled` and broadcasts `order_filled`
with the frozen price. -/
theorem price_fixed_after_detection (st : RelayerState) (oid : String) (evs : List Event)
    (h : escEthExists st oid = true) :
    priceOf (run evs st) oid = priceOf st oid
    ∧ priceUpdateCount oid (run evs st).broadcasts = priceUpdateCount oid st.broadcasts
    ∧ escEthExists (run evs st) oid = true
    ∧ (∀ (st0 : RelayerState) (es : EscrowStatus) (po : PublicOrder) (b : Int)
        (fh : Option Int) (ns : Int),
        lookupA oid st0.escrowStatuses = some es →
        lookupA oid st0.publicOrders = some po →
        oid ∈ st0.escrowMonitors →
        es.ethereumExists = false → es.stellarExists = false →
        oid ∉ (step (.monitorTick true b false fh ns oid) st0).auctionTimers
        ∧ escEthExists (step (.monitorTick true b false fh ns oid) st0) oid = true
        ∧ priceOf (step (.monitorTick true b false fh ns oid) st0) oid = some po.currentPrice
        ∧ (po.status = .auction →
            statusOf (step (.monitorTick true b false fh ns oid) st0) oid = some .filled
            ∧ (step (.monitorTick true b false fh ns oid) st0).broadcasts
                = st0.broadcasts ++ [.order_filled oid po.currentPrice])) := by
  have hr := run_price_fixed oid evs st h
  exact ⟨hr.2.1, hr.2.2, hr.1, fun st0 es po b fh ns hes hpo hmon hex hsx =>
    monitorTick_detect b fh ns oid st0 es po hes hpo hmon hex hsx⟩

def stDetected : RelayerState := (simulateEscrow "ord-1" "ethereum" stAuction).1

/-- Witness for C3: from a concrete state whose Ethereum escrow flag is set,
an auction tick and a take_order leave the price and the price_update count
unchanged, and at a concrete undetected state the detection tick fills the
order and freezes the price. -/
theorem price_fixed_after_detection_witness :
    priceOf (run [Event.auctionTick 95000 "ord-1", Event.takeOrder "ord-1" "0xR"] stDetected) "ord-1"
        = priceOf stDetected "ord-1"
    ∧ escEthExists (run [Event.auctionTick 95000 "ord-1", Event.takeOrder "ord-1" "0xR"] stDetected) "ord-1" = true
    ∧ "ord-1" ∉ (step (.monitorTick true 100 false (some 50) 0 "ord-1") stMonitor).auctionTimers
    ∧ priceOf (step (.monitorTick true 100 false (some 50) 0 "ord-1") stMonitor) "ord-1"
        = some (1050000000 : Rat) := by
  have h := price_fixed_after_detection stDetected "ord-1"
    [Event.auctionTick 95000 "ord-1", Event.takeOrder "ord-1" "0xR"] rfl
  have hd := h.2.2.2 stMonitor esEmpty { pendingPO with status := .filled } 100 (some 50) 0
    rfl rfl (by decide) rfl rfl
  exact ⟨h.1, h.2.2.1, hd.1, hd.2.2.1⟩

end EthXlmAtomic
